import Mathlib

/-!
Millicast metadata publisher demo: stats report, credentials and the demo's `run`

A shallow embedding of

* `millicast-sdk/stats.h`: the `rtcstats` record structs, their `STYPE` discriminants,
  `Stats::cast_to`, `StatsReport::get_as` and `StatsReport::get_stats_of_type`;
* `src/main.cpp`: `get_env`, `get_stream_credentials`, the class `MetadataPublisher` (`run`,
  the listener callbacks, `encode`, `on_transformable_frame`), `print_logs` and `main`;
* `millicast-sdk/source.h`: `Source::SourceBuilder::build` and the `build_extra` methods;
* `millicast-sdk/mc_logging.h`: `LogLevel`.

`StatsReport` is an abstract class: `add_stats`, `get`, `take`, `size`, `begin` and `end` are
pure virtual and implemented in the closed SDK binary.  The header fixes the container
(`const_iterator` wraps a `std::map<std::string, StatObject>::const_iterator`); the operations on
it are modelled from the specification and marked as such.  The same holds for the session
behind `Publisher` (`connect`, `publish`, `disconnect`, `add_track`, `set_credentials`), whose
methods are pure virtual.
-/

namespace Millicast

namespace rtcstats

/-- The discriminant `enum class Type` of `stats.h`. -/
inductive StatsType where
  | CODEC
  | OUTBOUND_RTP
  | INBOUND_RTP
  | REMOTE_INBOUND_RTP
  | REMOTE_OUTBOUND_RTP
  | MEDIA_TRACK
  | AUDIO_TRACK
  | VIDEO_TRACK
  | MEDIA_SOURCE
  deriving DecidableEq, Repr

/-- The structs of namespace `rtcstats`: `Stats` and everything derived from it. -/
inductive Struct where
  | Stats
  | Codecs
  | RtpStream
  | ReceivedRtpStream
  | InboundRtpStream
  | SentRtpStream
  | OutboundRtpStream
  | RemoteOutboundRtpStream
  | RemoteInboundRtpStream
  | MediaStreamTrack
  | VideoStreamTrack
  | AudioStreamTrack
  | MediaSource
  | VideoSource
  | AudioSource
  deriving DecidableEq, Repr

/-- The direct base class of each struct (`struct X : public Y`); `Stats` is the root. -/
def Struct.base : Struct → Option Struct
  | .Stats => none
  | .Codecs => some .Stats
  | .RtpStream => some .Stats
  | .ReceivedRtpStream => some .RtpStream
  | .InboundRtpStream => some .ReceivedRtpStream
  | .SentRtpStream => some .RtpStream
  | .OutboundRtpStream => some .SentRtpStream
  | .RemoteOutboundRtpStream => some .SentRtpStream
  | .RemoteInboundRtpStream => some .ReceivedRtpStream
  | .MediaStreamTrack => some .Stats
  | .VideoStreamTrack => some .MediaStreamTrack
  | .AudioStreamTrack => some .MediaStreamTrack
  | .MediaSource => some .Stats
  | .VideoSource => some .MediaSource
  | .AudioSource => some .MediaSource

/-- The struct itself followed by its base classes, following `base` at most `n` times. -/
def Struct.baseChain : Nat → Struct → List Struct
  | 0, s => [s]
  | n + 1, s =>
    s :: (match s.base with
          | some b => Struct.baseChain n b
          | none => [])

/-- An object created as struct `s` is a `t`: `t` is `s` or one of its (transitive) bases.
The hierarchy is three levels deep below `Stats`. -/
def Struct.isA (s t : Struct) : Bool := decide (t ∈ Struct.baseChain 3 s)

/-- The structs that declare `static constexpr auto STYPE`: the template arguments with which
`get_as<T>` and `get_stats_of_type<T>` compile (`Stats` and `RtpStream` declare none). -/
inductive RecordT where
  | Codecs
  | ReceivedRtpStream
  | InboundRtpStream
  | SentRtpStream
  | OutboundRtpStream
  | RemoteOutboundRtpStream
  | RemoteInboundRtpStream
  | MediaStreamTrack
  | VideoStreamTrack
  | AudioStreamTrack
  | MediaSource
  | VideoSource
  | AudioSource
  deriving DecidableEq, Repr

/-- The struct a template argument names. -/
def RecordT.struct : RecordT → Struct
  | .Codecs => .Codecs
  | .ReceivedRtpStream => .ReceivedRtpStream
  | .InboundRtpStream => .InboundRtpStream
  | .SentRtpStream => .SentRtpStream
  | .OutboundRtpStream => .OutboundRtpStream
  | .RemoteOutboundRtpStream => .RemoteOutboundRtpStream
  | .RemoteInboundRtpStream => .RemoteInboundRtpStream
  | .MediaStreamTrack => .MediaStreamTrack
  | .VideoStreamTrack => .VideoStreamTrack
  | .AudioStreamTrack => .AudioStreamTrack
  | .MediaSource => .MediaSource
  | .VideoSource => .VideoSource
  | .AudioSource => .AudioSource

/-- The constant `T::STYPE` of each struct, as written in `stats.h`. -/
def RecordT.STYPE : RecordT → StatsType
  | .Codecs => .CODEC
  | .ReceivedRtpStream => .INBOUND_RTP
  | .InboundRtpStream => .INBOUND_RTP
  | .SentRtpStream => .OUTBOUND_RTP
  | .OutboundRtpStream => .OUTBOUND_RTP
  | .RemoteOutboundRtpStream => .REMOTE_OUTBOUND_RTP
  | .RemoteInboundRtpStream => .REMOTE_INBOUND_RTP
  | .MediaStreamTrack => .MEDIA_TRACK
  | .VideoStreamTrack => .VIDEO_TRACK
  | .AudioStreamTrack => .AUDIO_TRACK
  | .MediaSource => .MEDIA_SOURCE
  | .VideoSource => .MEDIA_SOURCE
  | .AudioSource => .MEDIA_SOURCE

/-- A stats object as held by a `StatObject` (`std::unique_ptr<const rtcstats::Stats>`).
`timestamp`, `id` and `type` are the members of `struct Stats`.  `stored` is a ghost field: the
most derived struct the object was created as, which C++ does not record at run time (the
structs have no virtual members).  The members added by the derived structs are not read by any
function embedded here and are left out. -/
structure Stats where
  timestamp : Int
  id : String
  type : StatsType
  stored : Struct
  deriving DecidableEq, Repr

/-- The method `Stats::cast_to<T>`: `static_cast<const T *>(this)`.  The hierarchy uses single
non-virtual inheritance, so the cast yields the same object and checks nothing. -/
def Stats.cast_to (_T : RecordT) (this : Stats) : Stats := this

/-- An object is well typed when its `type` member is the `STYPE` of the struct it was
created as. -/
def Stats.WellTyped (s : Stats) : Prop :=
  ∃ T : RecordT, T.struct = s.stored ∧ T.STYPE = s.type

end rtcstats

open rtcstats

/-- The class `StatsReport`.  The only data the header shows is the container its
`const_iterator` walks, a `std::map<std::string, StatObject>`; it is represented by its entries
in iteration order. -/
structure StatsReport where
  map : List (String × Stats)
  deriving DecidableEq, Repr

namespace StatsReport

/-- The representation invariant of `std::map`: keys strictly ascending (hence unique). -/
def WF (r : StatsReport) : Prop := r.map.Pairwise (fun a b => a.1 < b.1)

/-- Insertion into the ordered entries of a `std::map`, replacing the value of an equal key. -/
def insertEntry (k : String) (v : Stats) : List (String × Stats) → List (String × Stats)
  | [] => [(k, v)]
  | e :: rest =>
    if k < e.1 then (k, v) :: e :: rest
    else if e.1 < k then e :: insertEntry k v rest
    else (k, v) :: rest

/-- Lookup of a key in the entries of a `std::map` (`std::map::find`). -/
def findEntry (k : String) : List (String × Stats) → Option Stats
  | [] => none
  | e :: rest => if e.1 = k then some e.2 else findEntry k rest

/-- Removal of a key from the entries of a `std::map` (`std::map::erase`). -/
def eraseEntry (k : String) : List (String × Stats) → List (String × Stats)
  | [] => []
  | e :: rest => if e.1 = k then rest else e :: eraseEntry k rest

/-- Modelled from the spec: the constructor `StatsReport()` is declared only; a new report holds
no record. -/
def empty : StatsReport := ⟨[]⟩

/-- Modelled from the spec: `add_stats` is pure virtual in `stats.h`; the spec says
"`add_stats(record)`: inserts/overwrites by id". -/
def add_stats (r : StatsReport) (stats : Stats) : StatsReport :=
  ⟨insertEntry stats.id stats r.map⟩

/-- Modelled from the spec: `get` is pure virtual in `stats.h`; the spec says
"`get(id)`: returns the record or a not-found indicator". -/
def get (r : StatsReport) (id : String) : Option Stats := findEntry id r.map

/-- Modelled from the spec: `take` is pure virtual in `stats.h`; the spec says
"`take(id)`: atomically removes and returns ownership, or not-found if absent" and the header
"Removes the stats object from the report, returning ownership of it or null if there is no
object with `id`".  The result is the returned object and the report afterwards. -/
def take (r : StatsReport) (id : String) : Option Stats × StatsReport :=
  (findEntry id r.map, ⟨eraseEntry id r.map⟩)

/-- Modelled from the spec: `size` is pure virtual in `stats.h`; the spec says
"`size()`: current record count". -/
def size (r : StatsReport) : Nat := r.map.length

/-- Modelled from the spec: `begin` and `end` are pure virtual in `stats.h`; the sequence they
delimit is the report's map walked by `const_iterator`, whose `operator*` yields
`*_it->second`. -/
def iterate (r : StatsReport) : List Stats := r.map.map Prod.snd

/-- The template `StatsReport::get_as<T>`. -/
def get_as (T : RecordT) (r : StatsReport) (id : String) : Option Stats :=
  match r.get id with
  | none => none
  | some stats => if stats.type ≠ T.STYPE then none else some (stats.cast_to T)

/-- The template `StatsReport::get_stats_of_type<T>`: the range-for loop over `*this` pushing
the matching records onto `stats_of_type`. -/
def get_stats_of_type (T : RecordT) (r : StatsReport) : List Stats :=
  r.iterate.foldl
    (fun stats_of_type stats =>
      if stats.type = T.STYPE then stats_of_type ++ [stats.cast_to T] else stats_of_type)
    []

/-- The report after a sequence of `add_stats` calls on a new report. -/
def addAll (records : List Stats) : StatsReport := records.foldl add_stats empty

/-- Every entry of the map is stored under the `id` member of its record. -/
def KeyedById (r : StatsReport) : Prop := ∀ e ∈ r.map, e.1 = e.2.id

/-- Element `a` occurs in `l` at an earlier position than an occurrence of `b`. -/
def Before {α : Type} (a b : α) (l : List α) : Prop :=
  ∃ l1 l2 l3, l = l1 ++ a :: l2 ++ b :: l3

/-- A codec record with id `video-src`. -/
def sampleVideoCodec : Stats := ⟨1000, "video-src", StatsType.CODEC, Struct.Codecs⟩

/-- A codec record with id `audio-src`. -/
def sampleAudioCodec : Stats := ⟨1000, "audio-src", StatsType.CODEC, Struct.Codecs⟩

/-- A media-source record created as `AudioSource`, with id `mic`. -/
def sampleAudioSource : Stats := ⟨1000, "mic", StatsType.MEDIA_SOURCE, Struct.AudioSource⟩

end StatsReport

end Millicast

namespace Millicast

/-- The struct `Publisher::Credentials` of `publisher.h`. -/
structure Publisher.Credentials where
  is_valid : Bool
  stream_name : String
  token : String
  api_url : String
  deriving DecidableEq, Repr

/-- The struct `Viewer::Credentials` of `viewer.h`; `token` is a `std::optional`. -/
structure Viewer.Credentials where
  is_valid : Bool
  stream_name : String
  token : Option String
  account_id : String
  api_url : String
  deriving DecidableEq, Repr

/-- Modelled from the spec: `Publisher` is an abstract class whose implementation is in the SDK
binary. Of its state only the stored credentials are represented ("Owned exclusively by the
Session"). -/
structure Publisher where
  credentials : Publisher.Credentials
  deriving DecidableEq, Repr

/-- Modelled from the spec: `Viewer` is an abstract class whose implementation is in the SDK
binary. Of its state only the stored credentials are represented. -/
structure Viewer where
  credentials : Viewer.Credentials
  deriving DecidableEq, Repr

namespace Publisher

/-- Modelled from the spec: `Publisher::create` is declared only; credentials are "constructed
empty", and `get_credentials()` gives "an all-empty value with `is_valid=false` before first
set". -/
def create : Publisher := ⟨⟨false, "", "", ""⟩⟩

/-- Modelled from the spec: `Publisher::set_credentials` is pure virtual; the spec says
"validated at set-time (non-empty stream_name/token/api_url required for publish; invalid input
leaves state unchanged and returns failure)" and the header that it returns "true if the
credentials are valid and set correctly" and that `is_valid` "is set after calling
set_credentials". The result is the publisher afterwards and the returned flag. -/
def set_credentials (p : Publisher) (creds : Credentials) : Publisher × Bool :=
  if creds.stream_name = "" ∨ creds.token = "" ∨ creds.api_url = "" then (p, false)
  else ({ p with credentials := { creds with is_valid := true } }, true)

/-- Modelled from the spec: `Publisher::get_credentials` is pure virtual; it "returns the last
successfully validated value". -/
def get_credentials (p : Publisher) : Credentials := p.credentials

end Publisher

namespace Viewer

/-- Modelled from the spec: `Viewer::create` is declared only; credentials are "constructed
empty", with `is_valid=false` and no token. -/
def create : Viewer := ⟨⟨false, "", none, "", ""⟩⟩

/-- Modelled from the spec: `Viewer::set_credentials` is pure virtual; the spec says "Validates
required fields per role; on failure, existing credentials are retained and `false` is
returned". The spec marks only `token` as optional for the subscribe role, so the required
fields are taken to be `stream_name`, `account_id` and `api_url`. -/
def set_credentials (v : Viewer) (creds : Credentials) : Viewer × Bool :=
  if creds.stream_name = "" ∨ creds.account_id = "" ∨ creds.api_url = "" then (v, false)
  else ({ v with credentials := { creds with is_valid := true } }, true)

/-- Modelled from the spec: `Viewer::get_credentials` is pure virtual; it "returns the last
successfully validated value". -/
def get_credentials (v : Viewer) : Credentials := v.credentials

end Viewer

/-- The function `get_env` of `main.cpp`; `environ` is the process environment read by
`std::getenv` (`none` for a null result). -/
def get_env (environ : String → Option String) (var : String) : String :=
  match environ var with
  | some ret => ret
  | none => ""

/-- An environment in which both variables read by the demo are set. -/
def sampleEnviron (var : String) : Option String :=
  if var = "TEST_STREAM_NAME" then some "metadata-demo"
  else if var = "TEST_PUB_TOKEN" then some "secret"
  else none

/-- The initialiser of the function-local `static const ... credentials` in
`get_stream_credentials`; `is_valid` has no designated initialiser and is value-initialised. -/
def initial_credentials (environ : String → Option String) : Publisher.Credentials :=
  { is_valid := false
    stream_name := get_env environ "TEST_STREAM_NAME"
    token := get_env environ "TEST_PUB_TOKEN"
    api_url := "https://director.millicast.com/api/director/publish" }

/-- The function `get_stream_credentials` of `main.cpp`. `static_credentials` is the
function-local static: `none` until the first call has initialised it. The result is the static
afterwards and either the returned credentials or the message of the `std::runtime_error`
thrown. -/
def get_stream_credentials (environ : String → Option String)
    (static_credentials : Option Publisher.Credentials) :
    Option Publisher.Credentials × Except String Publisher.Credentials :=
  let credentials :=
    match static_credentials with
    | some initialised => initialised
    | none => initial_credentials environ
  if credentials.stream_name.length = 0 ∨ credentials.token.length = 0 then
    (some credentials,
      Except.error "Invalid credentials for publishing. Values must be non-empty.")
  else (some credentials, Except.ok credentials)

/-- The values the function-local static of `get_stream_credentials` can hold: not yet
initialised, or initialised by an earlier call under some environment. -/
def StaticReachable (static_credentials : Option Publisher.Credentials) : Prop :=
  static_credentials = none ∨ ∃ environ, static_credentials = some (initial_credentials environ)

/-- The members `width` and `height` of `VideoCapabilities` (`capabilities.h`) that `run`
reads. -/
structure VideoCapabilities where
  width : Int
  height : Int
  deriving DecidableEq, Repr

/-- A video source as `run` uses it: the value its `capability()` returns. -/
structure VideoSource where
  capability : VideoCapabilities
  deriving DecidableEq, Repr

/-- The calls `MetadataPublisher::run` makes into the SDK and the C library, in the order of
`main.cpp`; `set_credentials` carries its argument and the value it returned. -/
inductive SdkCall where
  | get_video_sources
  | start_capture
  | set_credentials (creds : Publisher.Credentials) (returned : Bool)
  | add_track
  | enable_frame_transformer (enable : Bool)
  | connect
  | capability
  | getchar
  deriving DecidableEq, Repr

/-- The data members of class `MetadataPublisher` of `main.cpp`. -/
structure MetadataPublisher where
  _publisher : Publisher
  width : Int
  height : Int
  pos_x : Int
  pos_y : Int
  dir_x : Int
  dir_y : Int
  deriving DecidableEq, Repr

/-- What a call of `MetadataPublisher::run` leaves behind: the object, the function-local static
of `get_stream_credentials`, the calls made in order, and the message of the exception that
left `run`, if one did. -/
structure RunResult where
  self : MetadataPublisher
  static_credentials : Option Publisher.Credentials
  trace : List SdkCall
  thrown : Option String
  deriving DecidableEq, Repr

namespace MetadataPublisher

/-- The constructor `MetadataPublisher()`: `pos_x{0}, pos_y{0}, dir_x{1}, dir_y{1}` and a new
publisher; `width` and `height` are not initialised, their indeterminate values are the
arguments. -/
def new (width height : Int) : MetadataPublisher :=
  { _publisher := Publisher.create, width := width, height := height,
    pos_x := 0, pos_y := 0, dir_x := 1, dir_y := 1 }

/-- The method `MetadataPublisher::run` of `main.cpp`. `video_sources` is what
`Media::get_video_sources()` returns. The value `set_credentials` returns is discarded by the
code and only recorded in the trace. `/ 2` on `int32_t` truncates towards zero. -/
def run (self : MetadataPublisher) (video_sources : List VideoSource)
    (environ : String → Option String) (static_credentials : Option Publisher.Credentials) :
    RunResult :=
  match video_sources with
  | [] => ⟨self, static_credentials, [SdkCall.get_video_sources], none⟩
  | video_source :: _ =>
    match get_stream_credentials environ static_credentials with
    | (static_after, Except.error what) =>
      ⟨self, static_after, [SdkCall.get_video_sources, SdkCall.start_capture], some what⟩
    | (static_after, Except.ok credentials) =>
      let set := self._publisher.set_credentials credentials
      let cap := video_source.capability
      ⟨{ self with
          _publisher := set.1
          width := cap.width
          height := cap.height
          pos_x := cap.width.tdiv 2
          pos_y := cap.height.tdiv 2 },
        static_after,
        [SdkCall.get_video_sources, SdkCall.start_capture,
          SdkCall.set_credentials credentials set.2, SdkCall.add_track,
          SdkCall.enable_frame_transformer true, SdkCall.connect, SdkCall.capability,
          SdkCall.getchar],
        none⟩

end MetadataPublisher

end Millicast

namespace Millicast

/-! ### Machine integers and the metadata written by the demo -/

/-- Conversion of an integer to `int8_t`: the value modulo `2^8` in `[-128, 127]`. -/
def wrap8 (v : Int) : Int := (v + 128) % 256 - 128

/-- Conversion of an integer to `int32_t`: the value modulo `2^32` in `[-2^31, 2^31 - 1]`. -/
def wrap32 (v : Int) : Int := (v + 2147483648) % 4294967296 - 2147483648

/-- The operator `&` on two 32-bit `int` values: the bitwise and of their two's-complement
bit patterns, read back as an `int`. -/
def and32 (a b : Int) : Int :=
  wrap32 (Int.ofNat ((a % 4294967296).toNat &&& (b % 4294967296).toNat))

/-- Conversion of an `int` to `uint8_t`, as done by `push_back` on a `std::vector<uint8_t>`. -/
def to_uint8 (v : Int) : Nat := (v % 256).toNat

/-- The function `std::clamp(v, lo, hi)`: `(v < lo) ? lo : (hi < v) ? hi : v`. -/
def clamp (v lo hi : Int) : Int := if v < lo then lo else if hi < v then hi else v

/-- The function `std::to_string(int)`: decimal digits, with a leading minus sign for a negative
value. -/
def to_string (v : Int) : String :=
  match v with
  | Int.ofNat n => Nat.repr n
  | Int.negSucc n => "-" ++ Nat.repr (n + 1)

/-- The enum `LogLevel` of `mc_logging.h`. -/
inductive LogLevel where
  | MC_FATAL
  | MC_ERROR
  | MC_WARNING
  | MC_LOG
  | MC_DEBUG
  deriving DecidableEq, Repr

/-- What a listener method of `MetadataPublisher` does to the outside: a call of
`_publisher->publish()`, a call of `Logger::log(msg, lvl)`, or the bytes it leaves in the `data`
vector of `on_transformable_frame`. -/
inductive Effect where
  | publish
  | log (msg : String) (lvl : LogLevel)
  | user_data (data : List Nat)
  deriving DecidableEq, Repr

/-- The callbacks of `Client::Listener` and `Publisher::Listener` with their arguments
(`on_stats_report` without its report, `on_transformable_frame` with the vector it is handed). -/
inductive Event where
  | on_connected
  | on_connection_error (status : Int) (reason : String)
  | on_signaling_error (message : String)
  | on_stats_report
  | on_viewer_count (count : Int)
  | on_publishing
  | on_publishing_error (reason : String)
  | on_active
  | on_inactive
  | on_transformable_frame (ssrc timestamp : Nat) (data : List Nat)
  deriving DecidableEq, Repr

namespace MetadataPublisher

/-- The method `MetadataPublisher::encode` of `main.cpp`: four `push_back` calls of
`(value >> s) & 0xff` for `s = 24, 16, 8, 0`; `>>` on `int32_t` is the arithmetic shift. -/
def encode (value : Int) (data : List Nat) : List Nat :=
  let data := data ++ [to_uint8 (and32 (value >>> (24 : Nat)) 0xff)]
  let data := data ++ [to_uint8 (and32 (value >>> (16 : Nat)) 0xff)]
  let data := data ++ [to_uint8 (and32 (value >>> (8 : Nat)) 0xff)]
  data ++ [to_uint8 (and32 value 0xff)]

/-- The method `MetadataPublisher::on_transformable_frame` of `main.cpp`. `dir_x *= -1` is
computed in `int` and converted back to `int8_t`; `pos_x += dir_x * SPEED` is computed in `int`
(32 bits, wrapping). The result is the object afterwards and the vector `data`. -/
def on_transformable_frame (self : MetadataPublisher) (_ssrc _timestamp : Nat)
    (data : List Nat) : MetadataPublisher × List Nat :=
  let SPEED : Int := 10
  let dir_x := if self.pos_x = self.width ∨ self.pos_x = 0 then wrap8 (self.dir_x * -1)
    else self.dir_x
  let dir_y := if self.pos_y = self.height ∨ self.pos_y = 0 then wrap8 (self.dir_y * -1)
    else self.dir_y
  let pos_x := wrap32 (self.pos_x + dir_x * SPEED)
  let pos_y := wrap32 (self.pos_y + dir_y * SPEED)
  let pos_x := clamp pos_x 0 self.width
  let pos_y := clamp pos_y 0 self.height
  let data := encode pos_x data
  let data := encode pos_y data
  ({ self with pos_x := pos_x, pos_y := pos_y, dir_x := dir_x, dir_y := dir_y }, data)

/-- The method `MetadataPublisher::on_connected`: `_publisher->publish();`. -/
def on_connected (_self : MetadataPublisher) : List Effect := [Effect.publish]

/-- The method `MetadataPublisher::on_connection_error`. -/
def on_connection_error (_self : MetadataPublisher) (status : Int) (reason : String) :
    List Effect :=
  [Effect.log (to_string status ++ " " ++ reason) LogLevel.MC_ERROR]

/-- The method `MetadataPublisher::on_signaling_error`. -/
def on_signaling_error (_self : MetadataPublisher) (message : String) : List Effect :=
  [Effect.log message LogLevel.MC_ERROR]

/-- The method `MetadataPublisher::on_stats_report`, with an empty body. -/
def on_stats_report (_self : MetadataPublisher) : List Effect := []

/-- The method `MetadataPublisher::on_viewer_count`. -/
def on_viewer_count (_self : MetadataPublisher) (count : Int) : List Effect :=
  [Effect.log ("Viewer Count : " ++ to_string count) LogLevel.MC_LOG]

/-- The method `MetadataPublisher::on_publishing`. -/
def on_publishing (_self : MetadataPublisher) : List Effect :=
  [Effect.log "Publishing" LogLevel.MC_LOG]

/-- The method `MetadataPublisher::on_publishing_error`. -/
def on_publishing_error (_self : MetadataPublisher) (reason : String) : List Effect :=
  [Effect.log reason LogLevel.MC_ERROR]

/-- The method `MetadataPublisher::on_active`, with an empty body. -/
def on_active (_self : MetadataPublisher) : List Effect := []

/-- The method `MetadataPublisher::on_inactive`, with an empty body. -/
def on_inactive (_self : MetadataPublisher) : List Effect := []

/-- The virtual dispatch of a listener callback to the override in `MetadataPublisher`: the
object afterwards and what the method did, in order. -/
def dispatch (self : MetadataPublisher) : Event → MetadataPublisher × List Effect
  | Event.on_connected => (self, self.on_connected)
  | Event.on_connection_error status reason => (self, self.on_connection_error status reason)
  | Event.on_signaling_error message => (self, self.on_signaling_error message)
  | Event.on_stats_report => (self, self.on_stats_report)
  | Event.on_viewer_count count => (self, self.on_viewer_count count)
  | Event.on_publishing => (self, self.on_publishing)
  | Event.on_publishing_error reason => (self, self.on_publishing_error reason)
  | Event.on_active => (self, self.on_active)
  | Event.on_inactive => (self, self.on_inactive)
  | Event.on_transformable_frame ssrc timestamp data =>
    ((self.on_transformable_frame ssrc timestamp data).1,
      [Effect.user_data (self.on_transformable_frame ssrc timestamp data).2])

end MetadataPublisher

/-- The text between `[MillicastSDK:` and `]` that names a level in a log line. -/
def LogLevel.tag : LogLevel → String
  | LogLevel.MC_FATAL => "Fatal"
  | LogLevel.MC_ERROR => "Error"
  | LogLevel.MC_WARNING => "Warning"
  | LogLevel.MC_LOG => "Log"
  | LogLevel.MC_DEBUG => "Debug"

/-- The function `print_logs` of `main.cpp`: the characters written to `std::cout`, the line
built in `oss` followed by the newline of `std::endl`. -/
def print_logs (msg : String) (lvl : LogLevel) : String :=
  let oss := "[MillicastSDK:"
  let oss := oss ++
    (match lvl with
     | LogLevel.MC_DEBUG => "Debug]"
     | LogLevel.MC_LOG => "Log]"
     | LogLevel.MC_ERROR => "Error]"
     | LogLevel.MC_FATAL => "Fatal]"
     | LogLevel.MC_WARNING => "Warning]")
  let oss := oss ++ " " ++ msg
  oss ++ "\n"

end Millicast

namespace Millicast

/-- The reason text carried by the three error callbacks (`on_connection_error`,
`on_signaling_error`, `on_publishing_error`); `none` for every other callback. -/
def Event.error_reason : Event → Option String
  | Event.on_connection_error _ reason => some reason
  | Event.on_signaling_error message => some message
  | Event.on_publishing_error reason => some reason
  | _ => none

end Millicast

namespace Millicast

/-! ### Sources and their builders (`source.h`) -/

/-- The enum `Source::Type` of `source.h`. -/
inductive SourceType where
  | DEVICE
  | MONITOR
  | APP
  | MIC
  | NDI
  | DECKLINK
  | TVOS
  | CUSTOM
  deriving DecidableEq, Repr

/-- An object of a class derived from `Source`: the private members of `Source` and, in
`derived`, the members the derived class adds. -/
structure Source (D : Type) where
  _type : SourceType
  _id : Int
  _name : String
  _unique_id : String
  _track_name : String
  derived : D
  deriving DecidableEq, Repr

/-- The struct `Source::SourceBuilder<T>`: its four members and, in `underlying`, the members
the concrete builder `T` adds. -/
structure SourceBuilder (B : Type) where
  type : SourceType
  id : Int
  name : String
  unique_id : String
  underlying : B
  deriving DecidableEq, Repr

/-- The members `VideoSource` adds to `Source`. -/
structure VideoSourceMembers where
  _capabilities : List VideoCapabilities
  _capability : VideoCapabilities
  deriving DecidableEq, Repr

namespace Source

/-- Modelled from the spec: `Source::type<Source::Type>()` is declared only (implemented in the
SDK binary); the header documents it as "Get the video source's type", read from `_type`. -/
def type {D : Type} (self : Source D) : SourceType := self._type

/-- Modelled from the spec: `Source::id()` is declared only; the header documents it as "Get the
id of the source", read from `_id`. -/
def id {D : Type} (self : Source D) : Int := self._id

/-- Modelled from the spec: `Source::name()` is declared only; the header documents it as "Get
the name of the source", read from `_name`. -/
def name {D : Type} (self : Source D) : String := self._name

/-- Modelled from the spec: `Source::unique_id()` is declared only; the header documents it as
"Get the source's unique_id", read from `_unique_id`. -/
def unique_id {D : Type} (self : Source D) : String := self._unique_id

end Source

/-- The method `Source::SourceBuilder<T>::build` of `source.h`. `create` is the object that the
declared-only factory `T::create()` returns and `build_extra` the method of the concrete builder
`T`, called on the builder's own members and the source. -/
def SourceBuilder.build {B D : Type} (self : SourceBuilder B) (create : Source D)
    (build_extra : B → Source D → Source D) : Source D :=
  let source := create
  let source := { source with _type := self.type }
  let source := { source with _id := self.id }
  let source := { source with _name := self.name }
  let source := { source with _unique_id := self.unique_id }
  build_extra self.underlying source

/-- The method `VideoSource::Builder::build_extra` of `source.h`; the builder's own member is
`capabilities`. -/
def VideoSource.Builder.build_extra (capabilities : List VideoCapabilities)
    (src : Source VideoSourceMembers) : Source VideoSourceMembers :=
  let src := { src with derived := { src.derived with _capabilities := capabilities } }
  match src.derived._capabilities with
  | front :: _ => { src with derived := { src.derived with _capability := front } }
  | [] => src

/-- The method `AudioSource::Builder::build_extra` of `source.h`, with an empty body. -/
def AudioSource.Builder.build_extra (_underlying : Unit) (src : Source Unit) : Source Unit := src

/-- The method `AudioPlayback::Builder::build_extra` of `source.h`, with an empty body. -/
def AudioPlayback.Builder.build_extra (_underlying : Unit) (src : Source Unit) : Source Unit :=
  src

/-- The method `CustomSource::Builder::build_extra` of `source.h`, with an empty body. -/
def CustomSource.Builder.build_extra (_underlying : Unit) (src : Source Unit) : Source Unit :=
  src

/-! ### The session state machine, modelled from the specification -/

/-- Modelled from the spec: the states of the session state machine,
"`Idle → Connecting → Connected → (Publishing|Subscribed) → Disconnected`". -/
inductive SessionState where
  | Idle
  | Connecting
  | Connected
  | Publishing
  | Subscribed
  | Disconnected
  deriving DecidableEq, Repr

/-- Modelled from the spec: "Track: {id, kind (audio/video), enabled flag}". -/
structure Track where
  id : String
  kind : String
  enabled : Bool
  deriving DecidableEq, Repr

/-- Modelled from the spec: the publishing session, "{role, state, credentials, listener
reference, options}", with the tracks of its track registry; the implementation is in the SDK
binary. -/
structure Session where
  state : SessionState
  credentials : Publisher.Credentials
  tracks : List Track
  deriving DecidableEq, Repr

/-- Modelled from the spec: how "the underlying signaling handshake" started by `connect()`
ends: success, a connection error with status and reason, or a signaling error. -/
inductive ConnectOutcome where
  | established
  | connection_error (status : Int) (reason : String)
  | signaling_error (message : String)
  deriving DecidableEq, Repr

/-- Modelled from the spec: how the negotiation started by `publish()` ends: "on success fires
`on_publishing`", "on failure fires the matching `*_error` event". -/
inductive PublishOutcome where
  | established
  | publishing_error (reason : String)
  deriving DecidableEq, Repr

/-- Modelled from the spec: what a call on the session leaves behind: the session afterwards,
the returned flag, the listener events fired, and whether a teardown was carried out. -/
structure CallResult where
  session : Session
  returned : Bool
  fired : List Event
  teardown : Bool
  deriving DecidableEq, Repr

namespace Session

/-- Modelled from the spec: a new session is `Idle`, with empty credentials and no track. -/
def create : Session := ⟨SessionState.Idle, ⟨false, "", "", ""⟩, []⟩

/-- Modelled from the spec: `Client::connect` is pure virtual. "`connect()`: requires valid
credentials (else fails immediately, no event fired) and state `Idle`/`Disconnected`; else fails
with 'already connecting/connected'. On success of the underlying signaling handshake, fires
`on_connected` and moves to `Connected`. On failure, fires `on_connection_error(code, reason)`
or `on_signaling_error(reason)` and returns to `Idle`." A network failure is reported by the
event, not by the returned flag. -/
def connect (s : Session) (outcome : ConnectOutcome) : CallResult :=
  if s.credentials.is_valid = false then ⟨s, false, [], false⟩
  else
    match s.state with
    | SessionState.Idle | SessionState.Disconnected =>
      match outcome with
      | ConnectOutcome.established =>
        ⟨{ s with state := SessionState.Connected }, true, [Event.on_connected], false⟩
      | ConnectOutcome.connection_error status reason =>
        ⟨{ s with state := SessionState.Idle }, true,
          [Event.on_connection_error status reason], false⟩
      | ConnectOutcome.signaling_error message =>
        ⟨{ s with state := SessionState.Idle }, true, [Event.on_signaling_error message], false⟩
    | _ => ⟨s, false, [], false⟩

/-- Modelled from the spec: `Publisher::publish` is pure virtual. "`publish()`/`subscribe()`:
valid only from `Connected`; on success fires `on_publishing`/`on_subscribed` and moves to
`Publishing`/`Subscribed`; on failure fires the matching `*_error` event and returns to
`Connected`"; otherwise a "ProgrammerError ... returns boolean failure, no event, no state
change". -/
def publish (s : Session) (outcome : PublishOutcome) : CallResult :=
  match s.state with
  | SessionState.Connected =>
    match outcome with
    | PublishOutcome.established =>
      ⟨{ s with state := SessionState.Publishing }, true, [Event.on_publishing], false⟩
    | PublishOutcome.publishing_error reason =>
      ⟨{ s with state := SessionState.Connected }, true, [Event.on_publishing_error reason],
        false⟩
  | _ => ⟨s, false, [], false⟩

/-- Modelled from the spec: `Client::disconnect` is pure virtual. "A `disconnect()` from any
state transitions to `Disconnected` and is idempotent: calling it twice produces at most one
teardown side effect"; the call "always succeeds locally, tears down tracks, and moves to
`Disconnected`", and is "idempotent if already in target state". -/
def disconnect (s : Session) : CallResult :=
  match s.state with
  | SessionState.Disconnected => ⟨s, true, [], false⟩
  | _ => ⟨{ s with state := SessionState.Disconnected, tracks := [] }, true, [], true⟩

/-- Modelled from the spec: `Publisher::add_track` is pure virtual. "Adding the same track id
twice replaces the prior association (last-write-wins) rather than duplicating." -/
def add_track (s : Session) (track : Track) : Session :=
  { s with tracks := s.tracks.filter (fun t => decide (t.id ≠ track.id)) ++ [track] }

/-- Modelled from the spec: `Publisher::clear_tracks` is pure virtual. "`clear_tracks` detaches
all tracks from the session ... and is idempotent." -/
def clear_tracks (s : Session) : Session := { s with tracks := [] }

/-- Modelled from the spec: the number of associations the track registry holds ("registry
size"). -/
def registry_size (s : Session) : Nat := s.tracks.length

/-- Modelled from the spec: the tracks associated under a track id. -/
def associations (s : Session) (track_id : String) : List Track :=
  s.tracks.filter (fun t => decide (t.id = track_id))

end Session

end Millicast

namespace Millicast

/-! ### The program `main` and the demo driven by the session -/

/-- The steps of `main` of `main.cpp` on the main thread: the calls into the SDK, the
construction and destruction of the `MetadataPublisher` (which owns the `Publisher`), and the
calls made by `run`. -/
inductive MainStep where
  | disable_rtc_logs
  | set_logger
  | create_Publisher
  | set_listener
  | run (call : SdkCall)
  | destroy_MetadataPublisher
  | destroy_Publisher
  | cleanup
  deriving DecidableEq, Repr

/-- What an execution of `main` leaves behind: its steps in order and the value it returned,
`none` when the `std::runtime_error` thrown inside `run` left `main` uncaught, so that the
program was terminated instead of returning. -/
structure MainResult where
  trace : List MainStep
  returned : Option Int
  deriving DecidableEq, Repr

/-- The function `main` of `main.cpp`. `debug_build` tells whether `DEBUG_BUILD` is defined;
`width` and `height` are the indeterminate initial values of the members the constructor leaves
uninitialised. The object `publisher` lives in the inner block, so it is destroyed, and its
`std::unique_ptr<Publisher>` with it, before `Client::cleanup()`. -/
def main (debug_build : Bool) (width height : Int) (video_sources : List VideoSource)
    (environ : String → Option String) : MainResult :=
  let trace := if debug_build then [MainStep.disable_rtc_logs] else []
  let trace := trace ++ [MainStep.set_logger]
  let publisher := MetadataPublisher.new width height
  let trace := trace ++ [MainStep.create_Publisher, MainStep.set_listener]
  let ran := publisher.run video_sources environ none
  let trace := trace ++ ran.trace.map MainStep.run
  match ran.thrown with
  | some _ => ⟨trace, none⟩
  | none =>
    let trace := trace ++ [MainStep.destroy_MetadataPublisher, MainStep.destroy_Publisher]
    let trace := trace ++ [MainStep.cleanup]
    ⟨trace, some 0⟩

/-- An entry of the demo's trace: a call made by `run`, a listener callback delivered to the
`MetadataPublisher`, or something the callback did. -/
inductive TraceItem where
  | call (c : SdkCall)
  | event (e : Event)
  | effect (x : Effect)
  deriving DecidableEq, Repr

/-- Modelled from the spec: the events the SDK fires on its own while a session lasts, not as
the answer to `connect()` or `publish()`. -/
inductive SpontaneousEvent where
  | stats_report
  | viewer_count (count : Int)
  | active
  | inactive
  | transformable_frame (ssrc timestamp : Nat)
  | signaling_error (message : String)
  deriving DecidableEq, Repr

/-- The listener callback of a spontaneous event; a frame is handed an empty vector. -/
def SpontaneousEvent.event : SpontaneousEvent → Event
  | SpontaneousEvent.stats_report => Event.on_stats_report
  | SpontaneousEvent.viewer_count count => Event.on_viewer_count count
  | SpontaneousEvent.active => Event.on_active
  | SpontaneousEvent.inactive => Event.on_inactive
  | SpontaneousEvent.transformable_frame ssrc timestamp =>
    Event.on_transformable_frame ssrc timestamp []
  | SpontaneousEvent.signaling_error message => Event.on_signaling_error message

/-- Modelled from the spec: the demo while it runs: the listener object, the session behind its
publisher, the events fired and not yet delivered (the dispatcher delivers "in the order they
were generated"), and the trace so far. -/
structure DemoState where
  listener : MetadataPublisher
  session : Session
  pending : List Event
  trace : List TraceItem
  deriving DecidableEq, Repr

/-- Modelled from the spec: what the environment does next: the dispatcher delivers the oldest
pending event (and `publish_outcome` tells how a `publish()` made by the callback ends), or the
SDK fires a spontaneous event. -/
inductive DemoStep where
  | deliver (publish_outcome : PublishOutcome)
  | fire (e : SpontaneousEvent)
  deriving DecidableEq, Repr

namespace DemoState

/-- Modelled from the spec: carrying out one effect of a callback: `publish()` goes to the
session, whose events are queued; everything is recorded in the trace. -/
def perform (outcome : PublishOutcome) (d : DemoState) : Effect → DemoState
  | Effect.publish =>
    { d with
      session := (d.session.publish outcome).session
      pending := d.pending ++ (d.session.publish outcome).fired
      trace := d.trace ++ [TraceItem.effect Effect.publish] }
  | Effect.log msg lvl => { d with trace := d.trace ++ [TraceItem.effect (Effect.log msg lvl)] }
  | Effect.user_data data =>
    { d with trace := d.trace ++ [TraceItem.effect (Effect.user_data data)] }

/-- Modelled from the spec: one step of the demo; a delivery hands the oldest pending event to
the override in `MetadataPublisher` and carries out what the callback does. -/
def step (d : DemoState) : DemoStep → DemoState
  | DemoStep.deliver outcome =>
    match d.pending with
    | [] => d
    | e :: rest =>
      (d.listener.dispatch e).2.foldl (perform outcome)
        { d with
          listener := (d.listener.dispatch e).1
          pending := rest
          trace := d.trace ++ [TraceItem.event e] }
  | DemoStep.fire e => { d with pending := d.pending ++ [e.event] }

/-- Modelled from the spec: the demo after `run`: the calls of `run` are in the trace and, when
`connect()` was among them, the new session has answered it. -/
def start (self : MetadataPublisher) (video_sources : List VideoSource)
    (environ : String → Option String) (static_credentials : Option Publisher.Credentials)
    (connect_outcome : ConnectOutcome) : DemoState :=
  let ran := self.run video_sources environ static_credentials
  let session : Session := { Session.create with credentials := ran.self._publisher.get_credentials }
  if SdkCall.connect ∈ ran.trace then
    { listener := ran.self
      session := (session.connect connect_outcome).session
      pending := (session.connect connect_outcome).fired
      trace := ran.trace.map TraceItem.call }
  else
    { listener := ran.self, session := session, pending := [],
      trace := ran.trace.map TraceItem.call }

end DemoState

/-- Modelled from the spec: the trace of the demo for a given environment: `run`, then the steps
in order. -/
def demo_trace (self : MetadataPublisher) (video_sources : List VideoSource)
    (environ : String → Option String) (static_credentials : Option Publisher.Credentials)
    (connect_outcome : ConnectOutcome) (steps : List DemoStep) : List TraceItem :=
  (steps.foldl DemoState.step
    (DemoState.start self video_sources environ static_credentials connect_outcome)).trace

/-- Every `publish()` call and every `on_publishing` callback in the trace comes after an
`on_connected` callback. -/
def ConnectedFirst (trace : List TraceItem) : Prop :=
  ∀ before x after, trace = before ++ x :: after →
    x = TraceItem.effect Effect.publish ∨ x = TraceItem.event Event.on_publishing →
    TraceItem.event Event.on_connected ∈ before

end Millicast

namespace Millicast

/-! ### Reference definitions for the encoding and the bounce -/

/-- The values an `int32_t` can hold. -/
def IsInt32 (v : Int) : Prop := -2147483648 ≤ v ∧ v < 2147483648

/-- Reading four bytes as a big-endian two's-complement 32-bit integer: the unsigned value
`b0*2^24 + b1*2^16 + b2*2^8 + b3`, minus `2^32` when the sign bit is set. -/
def read_be32 (b0 b1 b2 b3 : Nat) : Int :=
  if b0 < 128 then (b0 * 16777216 + b1 * 65536 + b2 * 256 + b3 : Nat)
  else ((b0 * 16777216 + b1 * 65536 + b2 * 256 + b3 : Nat) : Int) - 4294967296

/-- The reference definition of one step of the bounce on one axis, over the integers: the
direction is reversed on either border, then the position moves by ten in the new direction and
is brought back into `[0, limit]`. The result is the new position and the new direction. -/
def bounce_reference (pos dir limit : Int) : Int × Int :=
  let dir' := if pos = limit ∨ pos = 0 then -dir else dir
  (max 0 (min limit (pos + 10 * dir')), dir')

/-- The object after a sequence of `on_transformable_frame` calls, one for each `(ssrc,
timestamp)` of `frames`, each handed an empty vector. -/
def MetadataPublisher.after_frames (self : MetadataPublisher) (frames : List (Nat × Nat)) :
    MetadataPublisher :=
  frames.foldl (fun s frame => (s.on_transformable_frame frame.1 frame.2 []).1) self

end Millicast

namespace Millicast

/-- What `on_transformable_frame` computes on one axis, as written in `main.cpp` for `pos_x`,
`dir_x`, `width` and again for `pos_y`, `dir_y`, `height`: the new position and direction. -/
def MetadataPublisher.axis_step (pos dir limit : Int) : Int × Int :=
  let dir := if pos = limit ∨ pos = 0 then wrap8 (dir * -1) else dir
  (clamp (wrap32 (pos + dir * 10)) 0 limit, dir)

/-- The state `run` establishes for a video source whose capability is 2147483647 x 480. -/
def wideFrameStart : MetadataPublisher :=
  ((MetadataPublisher.new 0 0).run [⟨⟨2147483647, 480⟩⟩] sampleEnviron none).self

/-- The states from which the bounce on one axis keeps moving: strictly inside the frame with a
unit direction, on the far border heading outwards, or on the near border heading outwards (the
next call reverses the direction first). -/
def Bouncing (pos dir limit : Int) : Prop :=
  (0 < pos ∧ pos < limit ∧ (dir = 1 ∨ dir = -1)) ∨ (pos = limit ∧ dir = 1) ∨
    (pos = 0 ∧ dir = -1)

end Millicast

/-! ## The ordered map: lookup, insertion and removal -/

namespace Millicast
open rtcstats
namespace StatsReport

theorem findEntry_insertEntry_self (k : String) (v : Stats) (l : List (String × Stats)) :
    findEntry k (insertEntry k v l) = some v := by
  induction l with
  | nil => simp [insertEntry, findEntry]
  | cons e rest ih =>
    unfold insertEntry
    split_ifs with h1 h2
    · simp [findEntry]
    · have hne : e.1 ≠ k := ne_of_lt h2
      simp [findEntry, hne, ih]
    · simp [findEntry]

theorem findEntry_insertEntry_ne (k k' : String) (v : Stats) (l : List (String × Stats))
    (hne : k' ≠ k) : findEntry k' (insertEntry k v l) = findEntry k' l := by
  induction l with
  | nil => simp [insertEntry, findEntry, Ne.symm hne]
  | cons e rest ih =>
    unfold insertEntry
    split_ifs with h1 h2
    · simp [findEntry, Ne.symm hne]
    · simp [findEntry, ih]
    · have hek : e.1 = k := le_antisymm (not_lt.mp h1) (not_lt.mp h2)
      have : e.1 ≠ k' := by rw [hek]; exact Ne.symm hne
      simp [findEntry, Ne.symm hne, this]

theorem findEntry_eq_none_of_lt (k : String) (l : List (String × Stats))
    (h : ∀ e ∈ l, k < e.1) : findEntry k l = none := by
  induction l with
  | nil => rfl
  | cons e rest ih =>
    have he : e.1 ≠ k := ne_of_gt (h e (List.mem_cons_self _ _))
    simp only [findEntry, he, if_false]
    exact ih (fun x hx => h x (List.mem_cons_of_mem _ hx))

theorem findEntry_isSome_mem (k : String) (l : List (String × Stats)) (v : Stats)
    (h : findEntry k l = some v) : (k, v) ∈ l := by
  induction l with
  | nil => simp [findEntry] at h
  | cons e rest ih =>
    unfold findEntry at h
    split_ifs at h with he
    · cases h
      rw [← he]
      exact List.mem_cons_self _ _
    · exact List.mem_cons_of_mem _ (ih h)

theorem mem_insertEntry (k : String) (v : Stats) (l : List (String × Stats)) (x : String × Stats)
    (hx : x ∈ insertEntry k v l) : x = (k, v) ∨ x ∈ l := by
  induction l with
  | nil => simpa [insertEntry] using hx
  | cons e rest ih =>
    unfold insertEntry at hx
    split_ifs at hx with h1 h2
    · simpa using hx
    · rcases List.mem_cons.mp hx with h | h
      · exact Or.inr (h ▸ List.mem_cons_self _ _)
      · rcases ih h with h' | h'
        · exact Or.inl h'
        · exact Or.inr (List.mem_cons_of_mem _ h')
    · rcases List.mem_cons.mp hx with h | h
      · exact Or.inl h
      · exact Or.inr (List.mem_cons_of_mem _ h)

theorem pairwise_insertEntry (k : String) (v : Stats) (l : List (String × Stats))
    (h : l.Pairwise (fun a b => a.1 < b.1)) :
    (insertEntry k v l).Pairwise (fun a b => a.1 < b.1) := by
  induction l with
  | nil => simp [insertEntry]
  | cons e rest ih =>
    have hrest := (List.pairwise_cons.mp h).2
    have hhead := (List.pairwise_cons.mp h).1
    unfold insertEntry
    split_ifs with h1 h2
    · refine List.pairwise_cons.mpr ⟨?_, h⟩
      intro x hx
      rcases List.mem_cons.mp hx with hx | hx
      · rw [hx]; exact h1
      · exact lt_trans h1 (hhead x hx)
    · refine List.pairwise_cons.mpr ⟨?_, ih hrest⟩
      intro x hx
      rcases mem_insertEntry k v rest x hx with hx | hx
      · rw [hx]; exact h2
      · exact hhead x hx
    · have hek : e.1 = k := le_antisymm (not_lt.mp h1) (not_lt.mp h2)
      refine List.pairwise_cons.mpr ⟨?_, hrest⟩
      intro x hx
      have := hhead x hx
      rw [hek] at this
      exact this

theorem length_insertEntry_absent (k : String) (v : Stats) (l : List (String × Stats))
    (h : findEntry k l = none) : (insertEntry k v l).length = l.length + 1 := by
  induction l with
  | nil => simp [insertEntry]
  | cons e rest ih =>
    unfold findEntry at h
    split_ifs at h with he
    unfold insertEntry
    split_ifs with h1 h2
    · simp
    · simp [ih h]
    · exact absurd (le_antisymm (not_lt.mp h1) (not_lt.mp h2)) he

theorem length_insertEntry_present (k : String) (v old : Stats) (l : List (String × Stats))
    (hs : l.Pairwise (fun a b => a.1 < b.1)) (h : findEntry k l = some old) :
    (insertEntry k v l).length = l.length := by
  induction l with
  | nil => simp [findEntry] at h
  | cons e rest ih =>
    have hrest := (List.pairwise_cons.mp hs).2
    have hhead := (List.pairwise_cons.mp hs).1
    unfold insertEntry
    split_ifs with h1 h2
    · exfalso
      have hnone : findEntry k (e :: rest) = none := by
        apply findEntry_eq_none_of_lt
        intro x hx
        rcases List.mem_cons.mp hx with hx | hx
        · rw [hx]; exact h1
        · exact lt_trans h1 (hhead x hx)
      rw [hnone] at h
      cases h
    · have hne : e.1 ≠ k := ne_of_lt h2
      simp only [findEntry, hne, if_false] at h
      simp [ih hrest h]
    · simp

theorem findEntry_eraseEntry_self (k : String) (l : List (String × Stats))
    (hs : l.Pairwise (fun a b => a.1 < b.1)) : findEntry k (eraseEntry k l) = none := by
  induction l with
  | nil => rfl
  | cons e rest ih =>
    have hrest := (List.pairwise_cons.mp hs).2
    have hhead := (List.pairwise_cons.mp hs).1
    unfold eraseEntry
    split_ifs with he
    · apply findEntry_eq_none_of_lt
      intro x hx
      rw [← he]
      exact hhead x hx
    · simp only [findEntry, he, if_false]
      exact ih hrest

theorem findEntry_eraseEntry_ne (k k' : String) (l : List (String × Stats)) (hne : k' ≠ k) :
    findEntry k' (eraseEntry k l) = findEntry k' l := by
  induction l with
  | nil => rfl
  | cons e rest ih =>
    unfold eraseEntry
    split_ifs with he
    · have : e.1 ≠ k' := by rw [he]; exact Ne.symm hne
      simp [findEntry, this]
    · simp [findEntry, ih]

theorem length_eraseEntry_present (k : String) (v : Stats) (l : List (String × Stats))
    (h : findEntry k l = some v) : (eraseEntry k l).length + 1 = l.length := by
  induction l with
  | nil => simp [findEntry] at h
  | cons e rest ih =>
    unfold findEntry at h
    unfold eraseEntry
    split_ifs at h ⊢ with he
    · simp
    · simp [ih h]

theorem eraseEntry_absent (k : String) (l : List (String × Stats))
    (h : findEntry k l = none) : eraseEntry k l = l := by
  induction l with
  | nil => rfl
  | cons e rest ih =>
    unfold findEntry at h
    unfold eraseEntry
    split_ifs at h ⊢ with he
    rw [ih h]

theorem eraseEntry_sublist (k : String) (l : List (String × Stats)) :
    List.Sublist (eraseEntry k l) l := by
  induction l with
  | nil => exact List.Sublist.refl _
  | cons e rest ih =>
    unfold eraseEntry
    split_ifs with he
    · exact List.sublist_cons_self _ _
    · exact List.Sublist.cons₂ _ ih

end StatsReport
end Millicast

namespace Millicast
open rtcstats
namespace StatsReport

theorem foldl_push_eq_filter (p : Stats → Prop) [DecidablePred p] (l acc : List Stats) :
    l.foldl (fun out s => if p s then out ++ [s] else out) acc
      = acc ++ l.filter (fun s => decide (p s)) := by
  induction l generalizing acc with
  | nil => simp
  | cons s rest ih =>
    rw [List.foldl_cons, ih]
    by_cases hp : p s
    · simp [hp, List.filter_cons]
    · simp [hp, List.filter_cons]

theorem get_stats_of_type_eq_filter (T : RecordT) (r : StatsReport) :
    get_stats_of_type T r = r.iterate.filter (fun s => decide (s.type = T.STYPE)) := by
  unfold get_stats_of_type
  simpa [Stats.cast_to] using
    foldl_push_eq_filter (fun s => s.type = T.STYPE) r.iterate []

theorem insertEntry_perm (k : String) (v : Stats) (l : List (String × Stats))
    (h : findEntry k l = none) : List.Perm (insertEntry k v l) ((k, v) :: l) := by
  induction l with
  | nil => simp [insertEntry]
  | cons e rest ih =>
    unfold findEntry at h
    split_ifs at h with he
    unfold insertEntry
    split_ifs with h1 h2
    · exact List.Perm.refl _
    · exact ((ih h).cons e).trans (List.Perm.swap _ _ _)
    · exact absurd (le_antisymm (not_lt.mp h1) (not_lt.mp h2)) he

theorem foldl_add_stats_perm (rs : List Stats) (r : StatsReport)
    (hnd : (rs.map (fun s => s.id)).Nodup)
    (hfresh : ∀ s ∈ rs, findEntry s.id r.map = none) :
    List.Perm (rs.foldl add_stats r).iterate (r.iterate ++ rs) := by
  induction rs generalizing r with
  | nil => simp
  | cons s rest ih =>
    rw [List.map_cons, List.nodup_cons] at hnd
    have hs : findEntry s.id r.map = none := hfresh s (List.mem_cons_self _ _)
    have hfresh2 : ∀ t ∈ rest, findEntry t.id (add_stats r s).map = none := by
      intro t ht
      have hne : t.id ≠ s.id := by
        intro heq
        exact hnd.1 (List.mem_map.mpr ⟨t, ht, heq⟩)
      show findEntry t.id (insertEntry s.id s r.map) = none
      rw [findEntry_insertEntry_ne _ _ _ _ hne]
      exact hfresh t (List.mem_cons_of_mem _ ht)
    have h1 := ih (add_stats r s) hnd.2 hfresh2
    have h2 : List.Perm (add_stats r s).iterate (s :: r.iterate) := by
      have := (insertEntry_perm s.id s r.map hs).map Prod.snd
      simpa [iterate, add_stats] using this
    rw [List.foldl_cons]
    refine h1.trans ?_
    refine (h2.append_right rest).trans ?_
    have hmid : List.Perm (r.iterate ++ s :: rest) (s :: (r.iterate ++ rest)) :=
      List.perm_middle
    simpa using hmid.symm

theorem addAll_perm (rs : List Stats) (hnd : (rs.map (fun s => s.id)).Nodup) :
    List.Perm (addAll rs).iterate rs := by
  have := foldl_add_stats_perm rs empty hnd (fun _ _ => rfl)
  simpa [addAll, empty, iterate] using this

theorem wf_empty : empty.WF := List.Pairwise.nil

theorem wf_add_stats (r : StatsReport) (s : Stats) (h : r.WF) : (r.add_stats s).WF :=
  pairwise_insertEntry s.id s r.map h

theorem wf_take (r : StatsReport) (id : String) (h : r.WF) : (r.take id).2.WF :=
  List.Pairwise.sublist (eraseEntry_sublist id r.map) h

theorem keyed_add_stats (r : StatsReport) (s : Stats) (h : r.KeyedById) :
    (r.add_stats s).KeyedById := by
  intro e he
  rcases mem_insertEntry s.id s r.map e he with h1 | h1
  · rw [h1]
  · exact h e h1

theorem foldl_add_stats_inv (rs : List Stats) (r : StatsReport) (hw : r.WF)
    (hk : r.KeyedById) : (rs.foldl add_stats r).WF ∧ (rs.foldl add_stats r).KeyedById := by
  induction rs generalizing r with
  | nil => exact ⟨hw, hk⟩
  | cons s rest ih => exact ih _ (wf_add_stats r s hw) (keyed_add_stats r s hk)

theorem iterate_ids_pairwise (r : StatsReport) (hw : r.WF) (hk : r.KeyedById) :
    r.iterate.Pairwise (fun a b => a.id < b.id) := by
  unfold iterate
  rw [List.pairwise_map]
  refine List.Pairwise.imp_of_mem ?_ hw
  intro a b ha hb hab
  rw [← hk a ha, ← hk b hb]
  exact hab

theorem before_of_pairwise {α : Type} (R : α → α → Prop) (hasymm : ∀ x y, R x y → ¬ R y x)
    (l : List α) (hl : l.Pairwise R) (a b : α) (ha : a ∈ l) (hb : b ∈ l) (hab : R a b) :
    Before a b l := by
  obtain ⟨l1, t, rfl⟩ := List.append_of_mem ha
  rw [List.pairwise_append] at hl
  rcases List.mem_append.mp hb with h | h
  · exact absurd (hl.2.2 b h a (List.mem_cons_self _ _)) (hasymm a b hab)
  · rcases List.mem_cons.mp h with h | h
    · subst h
      exact absurd hab (hasymm _ _ hab)
    · obtain ⟨l2, l3, rfl⟩ := List.append_of_mem h
      exact ⟨l1, l2, l3, by simp⟩

end StatsReport
end Millicast

/-! ## Credentials -/

namespace Millicast

theorem length_eq_zero_iff_empty (s : String) : s.length = 0 ↔ s = "" := by
  constructor
  · intro h
    exact String.ext (List.length_eq_zero.mp h)
  · rintro rfl
    rfl

theorem publish_url_ne_empty : "https://director.millicast.com/api/director/publish" ≠ "" := by
  decide

theorem get_stream_credentials_eq (environ : String → Option String)
    (st : Option Publisher.Credentials) (c : Publisher.Credentials)
    (hc : c = match st with
      | some initialised => initialised
      | none => initial_credentials environ) :
    get_stream_credentials environ st =
      if c.stream_name = "" ∨ c.token = "" then
        (some c, Except.error "Invalid credentials for publishing. Values must be non-empty.")
      else (some c, Except.ok c) := by
  subst hc
  unfold get_stream_credentials
  simp only [length_eq_zero_iff_empty]

theorem get_stream_credentials_ok_fields (environ : String → Option String)
    (st : Option Publisher.Credentials) (hst : StaticReachable st)
    (creds : Publisher.Credentials)
    (h : (get_stream_credentials environ st).2 = Except.ok creds) :
    creds.stream_name ≠ "" ∧ creds.token ≠ "" ∧
      creds.api_url = "https://director.millicast.com/api/director/publish" := by
  have key : ∀ c : Publisher.Credentials,
      c.api_url = "https://director.millicast.com/api/director/publish" →
      get_stream_credentials environ st =
        (if c.stream_name = "" ∨ c.token = "" then
          (some c, Except.error "Invalid credentials for publishing. Values must be non-empty.")
        else (some c, Except.ok c)) →
      creds.stream_name ≠ "" ∧ creds.token ≠ "" ∧
        creds.api_url = "https://director.millicast.com/api/director/publish" := by
    intro c hurl heq
    rw [heq] at h
    by_cases hc : c.stream_name = "" ∨ c.token = ""
    · rw [if_pos hc] at h
      cases h
    · rw [if_neg hc] at h
      have hcc : c = creds := by injection h
      subst hcc
      exact ⟨(not_or.mp hc).1, (not_or.mp hc).2, hurl⟩
  rcases hst with rfl | ⟨e, rfl⟩
  · exact key (initial_credentials environ) rfl (get_stream_credentials_eq environ none _ rfl)
  · exact key (initial_credentials e) rfl (get_stream_credentials_eq environ _ _ rfl)

theorem set_credentials_true_of_fields (p : Publisher) (creds : Publisher.Credentials)
    (h1 : creds.stream_name ≠ "") (h2 : creds.token ≠ "") (h3 : creds.api_url ≠ "") :
    (p.set_credentials creds).2 = true := by
  unfold Publisher.set_credentials
  rw [if_neg (by simp [h1, h2, h3])]

end Millicast

/-! ## The stats report -/

namespace Millicast
open rtcstats
namespace StatsReport

theorem audio_lt_video : "audio-src" < "video-src" := by
  rw [String.lt_iff_toList_lt]; decide

theorem wf_addAll (rs : List Stats) : (addAll rs).WF :=
  (foldl_add_stats_inv rs empty wf_empty (fun _ h => absurd h (List.not_mem_nil _))).1

theorem keyed_addAll (rs : List Stats) : (addAll rs).KeyedById :=
  (foldl_add_stats_inv rs empty wf_empty (fun _ h => absurd h (List.not_mem_nil _))).2

theorem addAll_two_desc :
    addAll [sampleVideoCodec, sampleAudioCodec]
      = ⟨[("audio-src", sampleAudioCodec), ("video-src", sampleVideoCodec)]⟩ := by
  simp only [addAll, List.foldl, add_stats, empty, insertEntry, sampleVideoCodec,
    sampleAudioCodec, audio_lt_video, if_true]

/-- C1: `get_as<T>(id)` returns the record that `get(id)` returns exactly when `get(id)` finds a
record whose `type` member equals `T::STYPE`; it returns null exactly when `get(id)` finds
nothing or finds a record with another discriminant. -/
theorem get_as_returns_iff (r : StatsReport) (id : String) (T : RecordT) :
    (∀ s, r.get_as T id = some s ↔ (r.get id = some s ∧ s.type = T.STYPE)) ∧
    (r.get_as T id = none ↔
      (r.get id = none ∨ ∃ s, r.get id = some s ∧ s.type ≠ T.STYPE)) := by
  unfold get_as
  cases hg : r.get id with
  | none => simp
  | some found =>
    by_cases ht : found.type = T.STYPE
    · have hif : (if found.type ≠ T.STYPE then none else some (found.cast_to T))
          = some found := by simp [ht, Stats.cast_to]
      simp only [hif]
      refine ⟨fun s => ⟨fun h => ?_, fun h => h.1⟩, ?_⟩
      · cases h; exact ⟨rfl, ht⟩
      · constructor
        · intro h; cases h
        · rintro (h | ⟨s, hs, hne⟩)
          · cases h
          · cases hs; exact absurd ht hne
    · have hif : (if found.type ≠ T.STYPE then none else some (found.cast_to T))
          = none := by simp [ht]
      simp only [hif]
      refine ⟨fun s => ⟨fun h => (by cases h), fun h => ?_⟩, ?_⟩
      · have h1 := h.1; cases h1; exact absurd h.2 ht
      · exact ⟨fun _ => Or.inr ⟨found, rfl, ht⟩, fun _ => trivial⟩

/-- C2 (the code at the failing input): a report holding one well-typed record created as
`AudioSource` hands that record out through `get_as<VideoSource>`, although an `AudioSource` is
not a `VideoSource`: both structs declare `STYPE = Type::MEDIA_SOURCE`. -/
theorem get_as_VideoSource_returns_AudioSource :
    sampleAudioSource.WellTyped ∧ (addAll [sampleAudioSource]).WF ∧
    (addAll [sampleAudioSource]).get_as RecordT.VideoSource "mic" = some sampleAudioSource ∧
    sampleAudioSource.stored = Struct.AudioSource ∧
    Struct.isA sampleAudioSource.stored RecordT.VideoSource.struct = false := by
  refine ⟨⟨RecordT.AudioSource, rfl, rfl⟩, wf_addAll _, by decide, rfl, by decide⟩

/-- C3: `get_stats_of_type<T>()` is the sequence `begin()..end()` restricted to the records
whose `type` equals `T::STYPE` (same multiplicities, nothing else); after adding records with
distinct ids to a new report it is a rearrangement of the added records of that type, so its
length is the number N of added records whose type is `T::STYPE`. -/
theorem get_stats_of_type_exact (T : RecordT) :
    (∀ r : StatsReport,
      r.get_stats_of_type T = r.iterate.filter (fun s => decide (s.type = T.STYPE))) ∧
    (∀ rs : List Stats, (rs.map (fun s => s.id)).Nodup →
      List.Perm ((addAll rs).get_stats_of_type T)
        (rs.filter (fun s => decide (s.type = T.STYPE))) ∧
      ((addAll rs).get_stats_of_type T).length
        = rs.countP (fun s => decide (s.type = T.STYPE))) := by
  refine ⟨get_stats_of_type_eq_filter T, ?_⟩
  intro rs hnd
  have hperm : List.Perm ((addAll rs).get_stats_of_type T)
      (rs.filter (fun s => decide (s.type = T.STYPE))) := by
    rw [get_stats_of_type_eq_filter]
    exact (addAll_perm rs hnd).filter _
  exact ⟨hperm, by rw [hperm.length_eq, List.countP_eq_length_filter]⟩

/-- C3 at a concrete input: two codec records and one media-source record. -/
theorem get_stats_of_type_exact_witness :
    ([sampleVideoCodec, sampleAudioSource, sampleAudioCodec].map (fun s => s.id)).Nodup ∧
    ((addAll [sampleVideoCodec, sampleAudioSource, sampleAudioCodec]).get_stats_of_type
      RecordT.Codecs).length = 2 :=
  ⟨by decide,
   ((get_stats_of_type_exact RecordT.Codecs).2
      [sampleVideoCodec, sampleAudioSource, sampleAudioCodec] (by decide)).2⟩

/-- C4 as stated fails: `video-src` is added before `audio-src`, both of type `CODEC`, and the
result lists `audio-src` first. -/
theorem get_stats_of_type_not_insertion_order :
    ([sampleVideoCodec, sampleAudioCodec].map (fun s => s.id)).Nodup ∧
    sampleVideoCodec.type = RecordT.Codecs.STYPE ∧
    sampleAudioCodec.type = RecordT.Codecs.STYPE ∧
    Before sampleVideoCodec sampleAudioCodec [sampleVideoCodec, sampleAudioCodec] ∧
    (addAll [sampleVideoCodec, sampleAudioCodec]).get_stats_of_type RecordT.Codecs
      = [sampleAudioCodec, sampleVideoCodec] ∧
    ¬ Before sampleVideoCodec sampleAudioCodec
      ((addAll [sampleVideoCodec, sampleAudioCodec]).get_stats_of_type RecordT.Codecs) := by
  have hres : (addAll [sampleVideoCodec, sampleAudioCodec]).get_stats_of_type RecordT.Codecs
      = [sampleAudioCodec, sampleVideoCodec] := by
    rw [addAll_two_desc]; decide
  refine ⟨by decide, rfl, rfl, ⟨[], [], [], rfl⟩, hres, ?_⟩
  rw [hres]
  rintro ⟨l1, l2, l3, h⟩
  cases l1 with
  | nil =>
    have h1 := (List.cons.inj h).1
    exact absurd h1 (by decide)
  | cons x l1 =>
    have h2 := congrArg List.length (List.cons.inj h).2
    simp at h2
    omega

/-- C4 amended: the matching records come in ascending id order. For every sequence of
`add_stats` calls with distinct ids on a new report, if records `a` and `b` of type `T` were
both added (in either order) and `a.id < b.id`, then `a` appears before `b` in the result. -/
theorem get_stats_of_type_id_order (T : RecordT) (rs : List Stats) (a b : Stats)
    (hnd : (rs.map (fun s => s.id)).Nodup) (ha : a ∈ rs) (hb : b ∈ rs)
    (hta : a.type = T.STYPE) (htb : b.type = T.STYPE) (hab : a.id < b.id) :
    Before a b ((addAll rs).get_stats_of_type T) := by
  have hmem : ∀ s ∈ rs, s.type = T.STYPE → s ∈ (addAll rs).get_stats_of_type T := by
    intro s hs ht
    rw [get_stats_of_type_eq_filter, List.mem_filter]
    exact ⟨(addAll_perm rs hnd).mem_iff.mpr hs, by simpa using ht⟩
  have hsorted : ((addAll rs).get_stats_of_type T).Pairwise (fun x y => x.id < y.id) := by
    rw [get_stats_of_type_eq_filter]
    exact List.Pairwise.sublist (List.filter_sublist _)
      (iterate_ids_pairwise _ (wf_addAll rs) (keyed_addAll rs))
  exact before_of_pairwise (fun x y => x.id < y.id) (fun x y h => lt_asymm h) _ hsorted a b
    (hmem a ha hta) (hmem b hb htb) hab

/-- C4 amended at a concrete input: `video-src` is added first and `audio-src` still comes
first in the result. -/
theorem get_stats_of_type_id_order_witness :
    Before sampleAudioCodec sampleVideoCodec
      ((addAll [sampleVideoCodec, sampleAudioCodec]).get_stats_of_type RecordT.Codecs) :=
  get_stats_of_type_id_order RecordT.Codecs [sampleVideoCodec, sampleAudioCodec]
    sampleAudioCodec sampleVideoCodec (by decide) (by decide) (by decide) rfl rfl audio_lt_video

end StatsReport
end Millicast

namespace Millicast
open rtcstats
namespace StatsReport

/-- C5: on every report, after `take(id)` a `get(id)` of the same id finds nothing, whether
or not the id was present before. -/
theorem get_after_take (r : StatsReport) (id : String) (h : r.WF) :
    (r.take id).2.get id = none :=
  findEntry_eraseEntry_self id r.map h

/-- C5 at a concrete input: taking `mic` out of a report that holds it. -/
theorem get_after_take_witness :
    (addAll [sampleAudioSource]).WF ∧
    ((addAll [sampleAudioSource]).take "mic").1 = some sampleAudioSource ∧
    ((addAll [sampleAudioSource]).take "mic").2.get "mic" = none :=
  ⟨wf_addAll _, by decide, get_after_take (addAll [sampleAudioSource]) "mic" (wf_addAll _)⟩

/-- C6: `add_stats(s)` inserts or overwrites by id and keeps the ids unique: afterwards the
keys are still strictly ascending (so no id occurs twice), `get(s.id)` returns `s`, the lookup
of every other id is unchanged, and `size()` is one more if `s.id` was absent and the same if an
older record was stored under `s.id`. -/
theorem add_stats_inserts_or_overwrites (r : StatsReport) (s : Stats) (h : r.WF) :
    (r.add_stats s).WF ∧
    ((r.add_stats s).map.map Prod.fst).Nodup ∧
    (r.add_stats s).get s.id = some s ∧
    (∀ id, id ≠ s.id → (r.add_stats s).get id = r.get id) ∧
    (r.get s.id = none → (r.add_stats s).size = r.size + 1) ∧
    (∀ old, r.get s.id = some old → (r.add_stats s).size = r.size) := by
  have hwf : (r.add_stats s).WF := wf_add_stats r s h
  refine ⟨hwf, ?_, findEntry_insertEntry_self s.id s r.map,
    fun id hne => findEntry_insertEntry_ne s.id id s r.map hne,
    fun habs => length_insertEntry_absent s.id s r.map habs,
    fun old hold => length_insertEntry_present s.id s old r.map h hold⟩
  rw [List.Nodup, List.pairwise_map]
  exact List.Pairwise.imp (fun hlt => ne_of_lt hlt) hwf

/-- C6 at a concrete input: overwriting the record stored under `mic`. -/
theorem add_stats_inserts_or_overwrites_witness :
    (addAll [sampleAudioSource]).WF ∧
    (addAll [sampleAudioSource]).get sampleAudioSource.id = some sampleAudioSource ∧
    ((addAll [sampleAudioSource]).add_stats sampleAudioSource).size
      = (addAll [sampleAudioSource]).size :=
  ⟨wf_addAll _, by decide,
   (add_stats_inserts_or_overwrites (addAll [sampleAudioSource]) sampleAudioSource
      (wf_addAll _)).2.2.2.2.2 sampleAudioSource (by decide)⟩

/-- C7: `take(id)` removes and returns the record or reports not-found: if `get(id)` finds `s`,
`take(id)` returns `s`, `size()` drops by exactly one and the lookup of every other id is
unchanged; if `get(id)` finds nothing, `take(id)` returns null and the report is unchanged. -/
theorem take_removes_or_not_found (r : StatsReport) (id : String) :
    (∀ s, r.get id = some s →
      (r.take id).1 = some s ∧ (r.take id).2.size + 1 = r.size ∧
      ∀ other, other ≠ id → (r.take id).2.get other = r.get other) ∧
    (r.get id = none → (r.take id).1 = none ∧ (r.take id).2 = r) := by
  refine ⟨fun s hs => ⟨hs, length_eraseEntry_present id s r.map hs,
    fun other hne => findEntry_eraseEntry_ne id other r.map hne⟩, fun hnone => ⟨hnone, ?_⟩⟩
  show (⟨eraseEntry id r.map⟩ : StatsReport) = r
  rw [eraseEntry_absent id r.map hnone]

/-- C7 at concrete inputs: taking a present id and taking an absent id. -/
theorem take_removes_or_not_found_witness :
    ((addAll [sampleAudioSource]).get "mic" = some sampleAudioSource ∧
      ((addAll [sampleAudioSource]).take "mic").1 = some sampleAudioSource ∧
      ((addAll [sampleAudioSource]).take "mic").2.size + 1 = (addAll [sampleAudioSource]).size) ∧
    ((addAll [sampleAudioSource]).get "cam" = none ∧
      ((addAll [sampleAudioSource]).take "cam").2 = addAll [sampleAudioSource]) :=
  ⟨⟨by decide,
    ((take_removes_or_not_found (addAll [sampleAudioSource]) "mic").1 sampleAudioSource
      (by decide)).1,
    ((take_removes_or_not_found (addAll [sampleAudioSource]) "mic").1 sampleAudioSource
      (by decide)).2.1⟩,
   ⟨by decide, ((take_removes_or_not_found (addAll [sampleAudioSource]) "cam").2 (by decide)).2⟩⟩

end StatsReport
end Millicast

/-! ## Credentials and the run of the demo -/

namespace Millicast

/-- C8: on its first call `get_stream_credentials` returns the credentials read from
`TEST_STREAM_NAME` and `TEST_PUB_TOKEN` exactly when both are non-empty and otherwise throws
`std::runtime_error("Invalid credentials for publishing. Values must be non-empty.")`; whenever
it returns, `stream_name`, `token` and `api_url` are non-empty and `api_url` is the director
publish URL. -/
theorem get_stream_credentials_validates (environ : String → Option String) :
    (get_env environ "TEST_STREAM_NAME" ≠ "" ∧ get_env environ "TEST_PUB_TOKEN" ≠ "" →
      (get_stream_credentials environ none).2 =
        Except.ok ⟨false, get_env environ "TEST_STREAM_NAME", get_env environ "TEST_PUB_TOKEN",
          "https://director.millicast.com/api/director/publish"⟩) ∧
    (get_env environ "TEST_STREAM_NAME" = "" ∨ get_env environ "TEST_PUB_TOKEN" = "" →
      (get_stream_credentials environ none).2 =
        Except.error "Invalid credentials for publishing. Values must be non-empty.") ∧
    (∀ st creds, StaticReachable st → (get_stream_credentials environ st).2 = Except.ok creds →
      creds.stream_name ≠ "" ∧ creds.token ≠ "" ∧ creds.api_url ≠ "" ∧
      creds.api_url = "https://director.millicast.com/api/director/publish") := by
  have heq := get_stream_credentials_eq environ none (initial_credentials environ) rfl
  refine ⟨fun h => ?_, fun h => ?_, fun st creds hst hok => ?_⟩
  · have hn : ¬ ((initial_credentials environ).stream_name = "" ∨
        (initial_credentials environ).token = "") := not_or.mpr h
    rw [heq, if_neg hn]
    rfl
  · have hp : (initial_credentials environ).stream_name = "" ∨
        (initial_credentials environ).token = "" := h
    rw [heq, if_pos hp]
  · have hf := get_stream_credentials_ok_fields environ st hst creds hok
    exact ⟨hf.1, hf.2.1, by rw [hf.2.2]; exact publish_url_ne_empty, hf.2.2⟩

/-- C8 at concrete inputs: both variables set, and the token missing. -/
theorem get_stream_credentials_validates_witness :
    (get_stream_credentials sampleEnviron none).2 =
        Except.ok ⟨false, "metadata-demo", "secret",
          "https://director.millicast.com/api/director/publish"⟩ ∧
    (get_stream_credentials
        (fun var => if var = "TEST_STREAM_NAME" then some "metadata-demo" else none) none).2 =
      Except.error "Invalid credentials for publishing. Values must be non-empty." :=
  ⟨(get_stream_credentials_validates sampleEnviron).1 ⟨by decide, by decide⟩,
   (get_stream_credentials_validates
      (fun var => if var = "TEST_STREAM_NAME" then some "metadata-demo" else none)).2.1
      (Or.inr (by decide))⟩

/-- C9: for every publisher and every viewer, `set_credentials` with an empty required field
returns false and leaves `get_credentials()` as it was; a new publisher or viewer reports the
all-empty value with `is_valid = false`, also after any number of such rejected calls. -/
theorem set_credentials_rejects_empty_field :
    (∀ (p : Publisher) (creds : Publisher.Credentials),
      creds.stream_name = "" ∨ creds.token = "" ∨ creds.api_url = "" →
      (p.set_credentials creds).2 = false ∧
      (p.set_credentials creds).1.get_credentials = p.get_credentials) ∧
    (∀ (v : Viewer) (creds : Viewer.Credentials),
      creds.stream_name = "" ∨ creds.account_id = "" ∨ creds.api_url = "" →
      (v.set_credentials creds).2 = false ∧
      (v.set_credentials creds).1.get_credentials = v.get_credentials) ∧
    (∀ attempts : List Publisher.Credentials,
      (∀ creds ∈ attempts, creds.stream_name = "" ∨ creds.token = "" ∨ creds.api_url = "") →
      (attempts.foldl (fun p creds => (p.set_credentials creds).1)
        Publisher.create).get_credentials = ⟨false, "", "", ""⟩) ∧
    (∀ attempts : List Viewer.Credentials,
      (∀ creds ∈ attempts,
        creds.stream_name = "" ∨ creds.account_id = "" ∨ creds.api_url = "") →
      (attempts.foldl (fun v creds => (v.set_credentials creds).1)
        Viewer.create).get_credentials = ⟨false, "", none, "", ""⟩) := by
  have hp : ∀ (p : Publisher) (creds : Publisher.Credentials),
      creds.stream_name = "" ∨ creds.token = "" ∨ creds.api_url = "" →
      p.set_credentials creds = (p, false) := by
    intro p creds h
    unfold Publisher.set_credentials
    rw [if_pos h]
  have hv : ∀ (v : Viewer) (creds : Viewer.Credentials),
      creds.stream_name = "" ∨ creds.account_id = "" ∨ creds.api_url = "" →
      v.set_credentials creds = (v, false) := by
    intro v creds h
    unfold Viewer.set_credentials
    rw [if_pos h]
  refine ⟨fun p creds h => by rw [hp p creds h]; exact ⟨rfl, rfl⟩,
    fun v creds h => by rw [hv v creds h]; exact ⟨rfl, rfl⟩, ?_, ?_⟩
  · intro attempts hall
    have : attempts.foldl (fun p creds => (p.set_credentials creds).1) Publisher.create
        = Publisher.create := by
      generalize Publisher.create = p
      induction attempts with
      | nil => rfl
      | cons c rest ih =>
        rw [List.foldl_cons, hp p c (hall c (List.mem_cons_self _ _))]
        exact ih (fun x hx => hall x (List.mem_cons_of_mem _ hx))
    rw [this]
    rfl
  · intro attempts hall
    have : attempts.foldl (fun v creds => (v.set_credentials creds).1) Viewer.create
        = Viewer.create := by
      generalize Viewer.create = v
      induction attempts with
      | nil => rfl
      | cons c rest ih =>
        rw [List.foldl_cons, hv v c (hall c (List.mem_cons_self _ _))]
        exact ih (fun x hx => hall x (List.mem_cons_of_mem _ hx))
    rw [this]
    rfl

/-- C9 at a concrete input: the credentials `stream_name ""`, `token "t"`, `api_url "u"` are
rejected by a publisher that already holds valid credentials, which it keeps. -/
theorem set_credentials_rejects_empty_field_witness :
    ((Publisher.mk ⟨true, "s", "t", "u"⟩).set_credentials ⟨false, "", "t", "u"⟩).2 = false ∧
    ((Publisher.mk ⟨true, "s", "t", "u"⟩).set_credentials
      ⟨false, "", "t", "u"⟩).1.get_credentials = ⟨true, "s", "t", "u"⟩ :=
  set_credentials_rejects_empty_field.1 (Publisher.mk ⟨true, "s", "t", "u"⟩)
    ⟨false, "", "t", "u"⟩ (Or.inl rfl)

/-- C10: in every execution of `MetadataPublisher::run`, whatever the video sources, the
environment and the publisher's earlier state, if `connect()` is the call at position `i` then
`set_credentials` was called at an earlier position and returned true, and no earlier
`set_credentials` call returned false. -/
theorem run_connect_after_valid_credentials (self : MetadataPublisher)
    (video_sources : List VideoSource) (environ : String → Option String)
    (st : Option Publisher.Credentials) (hst : StaticReachable st) (i : Nat)
    (hconnect : (self.run video_sources environ st).trace[i]? = some SdkCall.connect) :
    (∃ j creds, j < i ∧
      (self.run video_sources environ st).trace[j]? = some (SdkCall.set_credentials creds true)) ∧
    (∀ j creds, j < i →
      (self.run video_sources environ st).trace[j]?
        ≠ some (SdkCall.set_credentials creds false)) := by
  cases video_sources with
  | nil =>
    exfalso
    simp only [MetadataPublisher.run] at hconnect
    rcases i with _ | i <;> simp at hconnect
  | cons video_source others =>
    rcases hg : get_stream_credentials environ st with ⟨static_after, outcome⟩
    cases outcome with
    | error what =>
      exfalso
      simp only [MetadataPublisher.run, hg] at hconnect
      rcases i with _ | _ | i <;> simp at hconnect
    | ok credentials =>
      have hok : (get_stream_credentials environ st).2 = Except.ok credentials := by rw [hg]
      have hf := get_stream_credentials_ok_fields environ st hst credentials hok
      have hret : (self._publisher.set_credentials credentials).2 = true :=
        set_credentials_true_of_fields _ _ hf.1 hf.2.1
          (by rw [hf.2.2]; exact publish_url_ne_empty)
      simp only [MetadataPublisher.run, hg, hret] at hconnect ⊢
      rcases i with _ | _ | _ | _ | _ | _ | i
      · simp at hconnect
      · simp at hconnect
      · simp at hconnect
      · simp at hconnect
      · simp at hconnect
      · refine ⟨⟨2, credentials, by omega, by simp⟩, ?_⟩
        intro j creds hj
        rcases j with _ | _ | _ | _ | _ | j
        · simp
        · simp
        · simp
        · simp
        · simp
        · omega
      · rcases i with _ | _ | i <;> simp at hconnect

/-- C10 at a concrete input: with both variables set and one video source, `connect()` is the
sixth call of `run` and the third call is a `set_credentials` that returned true. -/
theorem run_connect_after_valid_credentials_witness :
    ((MetadataPublisher.new 0 0).run [⟨⟨640, 480⟩⟩] sampleEnviron none).trace[5]?
      = some SdkCall.connect ∧
    ∃ j creds, j < 5 ∧
      ((MetadataPublisher.new 0 0).run [⟨⟨640, 480⟩⟩] sampleEnviron none).trace[j]?
        = some (SdkCall.set_credentials creds true) :=
  ⟨by decide,
   (run_connect_after_valid_credentials (MetadataPublisher.new 0 0) [⟨⟨640, 480⟩⟩]
      sampleEnviron none (Or.inl rfl) 5 (by decide)).1⟩

end Millicast

/-! ## The metadata written on each frame -/

namespace Millicast


theorem and32_255 (x : Int) : and32 x 0xff = x % 256 := by
  unfold and32 wrap32
  have h255 : ((255 : Int) % 4294967296).toNat = 2 ^ 8 - 1 := by decide
  rw [h255, Nat.and_pow_two_sub_one_eq_mod]
  have hx : 0 ≤ x % 4294967296 := Int.emod_nonneg _ (by norm_num)
  have key : (Int.ofNat ((x % 4294967296).toNat % 2 ^ 8)) = x % 256 := by
    have h1 : ((x % 4294967296).toNat : Int) = x % 4294967296 := Int.toNat_of_nonneg hx
    show (((x % 4294967296).toNat % 2 ^ 8 : Nat) : Int) = x % 256
    push_cast
    rw [h1]
    omega
  rw [key]
  omega

theorem to_uint8_byte (x : Int) : (to_uint8 (and32 x 0xff) : Int) = x % 256 := by
  unfold to_uint8
  rw [and32_255]
  rw [Int.toNat_of_nonneg (Int.emod_nonneg _ (by norm_num))]
  omega

theorem to_uint8_lt (x : Int) : to_uint8 x < 256 := by
  unfold to_uint8
  have h1 : 0 ≤ x % 256 := Int.emod_nonneg _ (by norm_num)
  have h2 : x % 256 < 256 := Int.emod_lt_of_pos _ (by norm_num)
  omega

theorem encode_eq (value : Int) (data : List Nat) :
    MetadataPublisher.encode value data =
      data ++ [to_uint8 (and32 (value >>> (24 : Nat)) 0xff), to_uint8 (and32 (value >>> (16 : Nat)) 0xff),
        to_uint8 (and32 (value >>> (8 : Nat)) 0xff), to_uint8 (and32 value 0xff)] := by
  simp [MetadataPublisher.encode]

theorem encode_digits (value : Int) :
    (to_uint8 (and32 (value >>> (24 : Nat)) 0xff) : Int) * 16777216
      + (to_uint8 (and32 (value >>> (16 : Nat)) 0xff) : Int) * 65536
      + (to_uint8 (and32 (value >>> (8 : Nat)) 0xff) : Int) * 256
      + (to_uint8 (and32 value 0xff) : Int) = value % 4294967296 := by
  rw [to_uint8_byte, to_uint8_byte, to_uint8_byte, to_uint8_byte]
  rw [Int.shiftRight_eq_div_pow, Int.shiftRight_eq_div_pow, Int.shiftRight_eq_div_pow]
  norm_num
  omega

theorem clamp_bounds (v lo hi : Int) (h : lo ≤ hi) : lo ≤ clamp v lo hi ∧ clamp v lo hi ≤ hi := by
  unfold clamp
  split_ifs <;> omega

end Millicast

namespace Millicast

theorem on_transformable_frame_data (self : MetadataPublisher) (ssrc timestamp : Nat)
    (data : List Nat) :
    (self.on_transformable_frame ssrc timestamp data).2 =
      MetadataPublisher.encode (self.on_transformable_frame ssrc timestamp data).1.pos_y
        (MetadataPublisher.encode (self.on_transformable_frame ssrc timestamp data).1.pos_x
          data) := rfl

theorem on_transformable_frame_pos_x (self : MetadataPublisher) (ssrc timestamp : Nat)
    (data : List Nat) (h : 0 ≤ self.width) :
    0 ≤ (self.on_transformable_frame ssrc timestamp data).1.pos_x ∧
      (self.on_transformable_frame ssrc timestamp data).1.pos_x ≤ self.width :=
  clamp_bounds _ 0 self.width h

theorem on_transformable_frame_pos_y (self : MetadataPublisher) (ssrc timestamp : Nat)
    (data : List Nat) (h : 0 ≤ self.height) :
    0 ≤ (self.on_transformable_frame ssrc timestamp data).1.pos_y ∧
      (self.on_transformable_frame ssrc timestamp data).1.pos_y ≤ self.height :=
  clamp_bounds _ 0 self.height h

/-- C11: called with an empty vector, `on_transformable_frame` leaves exactly 8 bytes in `data`:
the four big-endian bytes of the updated `pos_x` followed by the four big-endian bytes of the
updated `pos_y`, for every state whose `width` and `height` are non-negative `int32_t` values
and for every `ssrc` and `timestamp`. -/
theorem on_transformable_frame_fills_empty_data (self : MetadataPublisher)
    (ssrc timestamp : Nat)
    (hw : 0 ≤ self.width) (hw32 : self.width < 2147483648)
    (hh : 0 ≤ self.height) (hh32 : self.height < 2147483648) :
    ∃ b0 b1 b2 b3 c0 c1 c2 c3 : Nat,
      (self.on_transformable_frame ssrc timestamp []).2 = [b0, b1, b2, b3, c0, c1, c2, c3] ∧
      (b0 < 256 ∧ b1 < 256 ∧ b2 < 256 ∧ b3 < 256) ∧
      (c0 < 256 ∧ c1 < 256 ∧ c2 < 256 ∧ c3 < 256) ∧
      (b0 : Int) * 16777216 + (b1 : Int) * 65536 + (b2 : Int) * 256 + (b3 : Int)
        = (self.on_transformable_frame ssrc timestamp []).1.pos_x ∧
      (c0 : Int) * 16777216 + (c1 : Int) * 65536 + (c2 : Int) * 256 + (c3 : Int)
        = (self.on_transformable_frame ssrc timestamp []).1.pos_y := by
  have hx := on_transformable_frame_pos_x self ssrc timestamp [] hw
  have hy := on_transformable_frame_pos_y self ssrc timestamp [] hh
  have hdx := encode_digits (self.on_transformable_frame ssrc timestamp []).1.pos_x
  have hdy := encode_digits (self.on_transformable_frame ssrc timestamp []).1.pos_y
  refine ⟨to_uint8 (and32 ((self.on_transformable_frame ssrc timestamp []).1.pos_x
      >>> (24 : Nat)) 0xff),
    to_uint8 (and32 ((self.on_transformable_frame ssrc timestamp []).1.pos_x >>> (16 : Nat)) 0xff),
    to_uint8 (and32 ((self.on_transformable_frame ssrc timestamp []).1.pos_x >>> (8 : Nat)) 0xff),
    to_uint8 (and32 (self.on_transformable_frame ssrc timestamp []).1.pos_x 0xff),
    to_uint8 (and32 ((self.on_transformable_frame ssrc timestamp []).1.pos_y >>> (24 : Nat)) 0xff),
    to_uint8 (and32 ((self.on_transformable_frame ssrc timestamp []).1.pos_y >>> (16 : Nat)) 0xff),
    to_uint8 (and32 ((self.on_transformable_frame ssrc timestamp []).1.pos_y >>> (8 : Nat)) 0xff),
    to_uint8 (and32 (self.on_transformable_frame ssrc timestamp []).1.pos_y 0xff),
    ?_, ⟨to_uint8_lt _, to_uint8_lt _, to_uint8_lt _, to_uint8_lt _⟩,
    ⟨to_uint8_lt _, to_uint8_lt _, to_uint8_lt _, to_uint8_lt _⟩, ?_, ?_⟩
  · rw [on_transformable_frame_data, encode_eq, encode_eq]
    rfl
  · rw [hdx]
    omega
  · rw [hdy]
    omega

/-- C11 at a concrete input: a 640x480 frame with the point at its centre moving right and
down; the point moves to (330, 250). -/
theorem on_transformable_frame_fills_empty_data_witness :
    ∃ b0 b1 b2 b3 c0 c1 c2 c3 : Nat,
      ((MetadataPublisher.mk Publisher.create 640 480 320 240 1 1).on_transformable_frame
        7 90000 []).2 = [b0, b1, b2, b3, c0, c1, c2, c3] ∧
      (b0 < 256 ∧ b1 < 256 ∧ b2 < 256 ∧ b3 < 256) ∧
      (c0 < 256 ∧ c1 < 256 ∧ c2 < 256 ∧ c3 < 256) ∧
      (b0 : Int) * 16777216 + (b1 : Int) * 65536 + (b2 : Int) * 256 + (b3 : Int)
        = ((MetadataPublisher.mk Publisher.create 640 480 320 240 1 1).on_transformable_frame
          7 90000 []).1.pos_x ∧
      (c0 : Int) * 16777216 + (c1 : Int) * 65536 + (c2 : Int) * 256 + (c3 : Int)
        = ((MetadataPublisher.mk Publisher.create 640 480 320 240 1 1).on_transformable_frame
          7 90000 []).1.pos_y :=
  on_transformable_frame_fills_empty_data (MetadataPublisher.mk Publisher.create 640 480 320 240 1 1)
    7 90000 (by decide) (by decide) (by decide) (by decide)

end Millicast

/-! ## Error callbacks and log lines -/

namespace Millicast

theorem print_logs_data (msg : String) (lvl : LogLevel) :
    (print_logs msg lvl).data =
      "[MillicastSDK:".data ++ (lvl.tag.data ++ ("] ".data ++ (msg.data ++ "\n".data))) := by
  cases lvl <;> simp [print_logs, LogLevel.tag, String.data_append]

/-- C13: each error callback of `MetadataPublisher` (`on_connection_error`,
`on_signaling_error`, `on_publishing_error`) makes exactly one `Logger::log` call and nothing
else, at level `MC_ERROR`, with a message that ends in the reason text unchanged; for
`on_connection_error` the message is the decimal status, one space, then the reason, for the
other two it is the reason itself. -/
theorem error_events_logged_once (self : MetadataPublisher) :
    (∀ (e : Event) (reason : String), e.error_reason = some reason →
      ∃ msg before, self.dispatch e = (self, [Effect.log msg LogLevel.MC_ERROR]) ∧
        msg = before ++ reason) ∧
    (∀ (status : Int) (reason : String),
      self.on_connection_error status reason
        = [Effect.log (to_string status ++ " " ++ reason) LogLevel.MC_ERROR]) ∧
    (∀ message : String,
      self.on_signaling_error message = [Effect.log message LogLevel.MC_ERROR]) ∧
    (∀ reason : String,
      self.on_publishing_error reason = [Effect.log reason LogLevel.MC_ERROR]) := by
  refine ⟨?_, fun _ _ => rfl, fun _ => rfl, fun _ => rfl⟩
  intro e reason he
  cases e with
  | on_connection_error status r =>
    cases he
    exact ⟨to_string status ++ " " ++ reason, to_string status ++ " ", rfl, rfl⟩
  | on_signaling_error message =>
    cases he
    exact ⟨reason, "", rfl, by simp⟩
  | on_publishing_error r =>
    cases he
    exact ⟨reason, "", rfl, by simp⟩
  | on_connected => cases he
  | on_stats_report => cases he
  | on_viewer_count count => cases he
  | on_publishing => cases he
  | on_active => cases he
  | on_inactive => cases he
  | on_transformable_frame ssrc timestamp data => cases he

/-- C13 at a concrete input: a connection error with status 401. -/
theorem error_events_logged_once_witness :
    ∃ msg before,
      (MetadataPublisher.new 0 0).dispatch (Event.on_connection_error 401 "Unauthorized")
        = (MetadataPublisher.new 0 0, [Effect.log msg LogLevel.MC_ERROR]) ∧
      msg = before ++ "Unauthorized" :=
  (error_events_logged_once (MetadataPublisher.new 0 0)).1
    (Event.on_connection_error 401 "Unauthorized") "Unauthorized" rfl

/-- C14: for every message and level `print_logs` writes the line
`[MillicastSDK:` + tag + `] ` + msg (then the newline of `std::endl`), where the tag is Fatal,
Error, Warning, Log or Debug; the tags are pairwise distinct, and the level and the message are
both determined by the line written. -/
theorem print_logs_line_level_and_message :
    (∀ (msg : String) (lvl : LogLevel),
      print_logs msg lvl = "[MillicastSDK:" ++ lvl.tag ++ "] " ++ msg ++ "\n") ∧
    (LogLevel.MC_FATAL.tag = "Fatal" ∧ LogLevel.MC_ERROR.tag = "Error" ∧
      LogLevel.MC_WARNING.tag = "Warning" ∧ LogLevel.MC_LOG.tag = "Log" ∧
      LogLevel.MC_DEBUG.tag = "Debug") ∧
    (∀ l1 l2 : LogLevel, l1.tag = l2.tag → l1 = l2) ∧
    (∀ (m1 m2 : String) (l1 l2 : LogLevel),
      print_logs m1 l1 = print_logs m2 l2 → l1 = l2 ∧ m1 = m2) := by
  refine ⟨?_, ⟨rfl, rfl, rfl, rfl, rfl⟩, ?_, ?_⟩
  · intro msg lvl
    apply String.ext
    rw [print_logs_data]
    simp [String.data_append]
  · intro l1 l2 h
    cases l1 <;> cases l2 <;> first | rfl | (exact absurd h (by decide))
  · intro m1 m2 l1 l2 h
    have hd := congrArg String.data h
    rw [print_logs_data, print_logs_data] at hd
    have hd2 := List.append_cancel_left hd
    cases l1 <;> cases l2 <;> simp [LogLevel.tag] at hd2 <;>
      exact ⟨rfl, String.ext hd2⟩

/-- C14 at a concrete input: the line written for an error message. -/
theorem print_logs_line_level_and_message_witness :
    print_logs "401 Unauthorized" LogLevel.MC_ERROR
      = "[MillicastSDK:Error] 401 Unauthorized\n" ∧
    (print_logs "401 Unauthorized" LogLevel.MC_ERROR = print_logs "401 Unauthorized"
        LogLevel.MC_ERROR →
      LogLevel.MC_ERROR = LogLevel.MC_ERROR ∧ "401 Unauthorized" = "401 Unauthorized") :=
  ⟨by decide,
   print_logs_line_level_and_message.2.2.2 "401 Unauthorized" "401 Unauthorized"
     LogLevel.MC_ERROR LogLevel.MC_ERROR⟩

end Millicast

/-! ## Source builders, the session state machine and the track registry -/

namespace Millicast

/-- C16: `SourceBuilder::build` returns the object made by `T::create()` with `_type`, `_id`,
`_name` and `_unique_id` set from the builder and `build_extra` of the concrete builder applied
to it; for the builders of `source.h` (`VideoSource`, `AudioSource`, `AudioPlayback`,
`CustomSource`) the returned source reports through `type()`, `id()`, `name()` and
`unique_id()` the builder's fields at the time of the call, and a video source also holds the
builder's capabilities, the first of them being the current one. -/
theorem build_sets_fields_and_applies_build_extra :
    (∀ (B D : Type) (b : SourceBuilder B) (created : Source D)
        (build_extra : B → Source D → Source D),
      b.build created build_extra =
        build_extra b.underlying
          { created with
            _type := b.type, _id := b.id, _name := b.name, _unique_id := b.unique_id }) ∧
    (∀ (b : SourceBuilder (List VideoCapabilities)) (created : Source VideoSourceMembers),
      (b.build created VideoSource.Builder.build_extra).type = b.type ∧
      (b.build created VideoSource.Builder.build_extra).id = b.id ∧
      (b.build created VideoSource.Builder.build_extra).name = b.name ∧
      (b.build created VideoSource.Builder.build_extra).unique_id = b.unique_id ∧
      (b.build created VideoSource.Builder.build_extra).derived._capabilities = b.underlying ∧
      (b.build created VideoSource.Builder.build_extra).derived._capability =
        b.underlying.headD created.derived._capability) ∧
    (∀ (b : SourceBuilder Unit) (created : Source Unit) (build_extra : Unit → Source Unit →
        Source Unit),
      build_extra = AudioSource.Builder.build_extra ∨
        build_extra = AudioPlayback.Builder.build_extra ∨
        build_extra = CustomSource.Builder.build_extra →
      (b.build created build_extra).type = b.type ∧
      (b.build created build_extra).id = b.id ∧
      (b.build created build_extra).name = b.name ∧
      (b.build created build_extra).unique_id = b.unique_id) := by
  refine ⟨fun _ _ _ _ _ => rfl, ?_, ?_⟩
  · intro b created
    rcases b with ⟨type, id, name, unique_id, capabilities⟩
    cases capabilities with
    | nil => exact ⟨rfl, rfl, rfl, rfl, rfl, rfl⟩
    | cons front others => exact ⟨rfl, rfl, rfl, rfl, rfl, rfl⟩
  · intro b created build_extra h
    rcases h with rfl | rfl | rfl <;> exact ⟨rfl, rfl, rfl, rfl⟩

/-- C16 at a concrete input: an audio source built from a microphone builder. -/
theorem build_sets_fields_and_applies_build_extra_witness :
    ((SourceBuilder.mk SourceType.MIC 3 "Microphone" "mic-0" ()).build
        (Source.mk SourceType.DEVICE 0 "" "" "" ()) AudioSource.Builder.build_extra).type
      = SourceType.MIC ∧
    ((SourceBuilder.mk SourceType.MIC 3 "Microphone" "mic-0" ()).build
        (Source.mk SourceType.DEVICE 0 "" "" "" ()) AudioSource.Builder.build_extra).id = 3 ∧
    ((SourceBuilder.mk SourceType.MIC 3 "Microphone" "mic-0" ()).build
        (Source.mk SourceType.DEVICE 0 "" "" "" ()) AudioSource.Builder.build_extra).name
      = "Microphone" ∧
    ((SourceBuilder.mk SourceType.MIC 3 "Microphone" "mic-0" ()).build
        (Source.mk SourceType.DEVICE 0 "" "" "" ()) AudioSource.Builder.build_extra).unique_id
      = "mic-0" :=
  build_sets_fields_and_applies_build_extra.2.2
    (SourceBuilder.mk SourceType.MIC 3 "Microphone" "mic-0" ())
    (Source.mk SourceType.DEVICE 0 "" "" "" ()) AudioSource.Builder.build_extra (Or.inl rfl)

/-- C17: `connect()` issued while the session is `Connected` returns false, leaves the session
(and so the state `Connected`) as it was and fires no event, in particular no further
`on_connected`, whatever the network would answer. -/
theorem connect_while_connected (s : Session) (outcome : ConnectOutcome)
    (h : s.state = SessionState.Connected) :
    (s.connect outcome).returned = false ∧
    (s.connect outcome).session = s ∧
    (s.connect outcome).session.state = SessionState.Connected ∧
    (s.connect outcome).fired = [] := by
  have hc : s.connect outcome = ⟨s, false, [], false⟩ := by
    unfold Session.connect
    split_ifs
    · rfl
    · rw [h]
  rw [hc]
  exact ⟨rfl, rfl, h, rfl⟩

/-- C17 at a concrete input: a connected session with valid credentials. -/
theorem connect_while_connected_witness :
    ((Session.mk SessionState.Connected ⟨true, "s", "t", "u"⟩ []).connect
        ConnectOutcome.established).returned = false ∧
    ((Session.mk SessionState.Connected ⟨true, "s", "t", "u"⟩ []).connect
        ConnectOutcome.established).session
      = Session.mk SessionState.Connected ⟨true, "s", "t", "u"⟩ [] ∧
    ((Session.mk SessionState.Connected ⟨true, "s", "t", "u"⟩ []).connect
        ConnectOutcome.established).session.state = SessionState.Connected ∧
    ((Session.mk SessionState.Connected ⟨true, "s", "t", "u"⟩ []).connect
        ConnectOutcome.established).fired = [] :=
  connect_while_connected (Session.mk SessionState.Connected ⟨true, "s", "t", "u"⟩ [])
    ConnectOutcome.established rfl

/-- C18: `publish()` invoked while the session is `Idle` returns false, fires no listener event
and leaves the session, and so its state, unchanged. -/
theorem publish_while_idle (s : Session) (outcome : PublishOutcome)
    (h : s.state = SessionState.Idle) :
    (s.publish outcome).returned = false ∧
    (s.publish outcome).fired = [] ∧
    (s.publish outcome).session = s := by
  have hp : s.publish outcome = ⟨s, false, [], false⟩ := by
    unfold Session.publish
    rw [h]
  rw [hp]
  exact ⟨rfl, rfl, rfl⟩

/-- C18 at a concrete input: a new session. -/
theorem publish_while_idle_witness :
    (Session.create.publish PublishOutcome.established).returned = false ∧
    (Session.create.publish PublishOutcome.established).fired = [] ∧
    (Session.create.publish PublishOutcome.established).session = Session.create :=
  publish_while_idle Session.create PublishOutcome.established rfl

/-- C19: `disconnect()` from any state moves the session to `Disconnected`, and it is idempotent:
calling it twice in a row leaves the same session as calling it once, the second call tears
nothing down, and the two calls together carry out at most one teardown. -/
theorem disconnect_idempotent (s : Session) :
    s.disconnect.session.state = SessionState.Disconnected ∧
    s.disconnect.session.disconnect.session = s.disconnect.session ∧
    s.disconnect.session.disconnect.teardown = false ∧
    (if s.disconnect.teardown then 1 else 0)
      + (if s.disconnect.session.disconnect.teardown then 1 else 0) ≤ 1 := by
  rcases s with ⟨state, credentials, tracks⟩
  cases state <;> simp [Session.disconnect]

/-- C19 at concrete inputs: a new (`Idle`) session, and a publishing session with one track whose
single teardown happens on the first call. -/
theorem disconnect_idempotent_witness :
    Session.create.state = SessionState.Idle ∧
    Session.create.disconnect.session.state = SessionState.Disconnected ∧
    (Session.mk SessionState.Publishing ⟨true, "s", "t", "u"⟩
        [⟨"cam", "video", true⟩]).disconnect.session.state = SessionState.Disconnected ∧
    (Session.mk SessionState.Publishing ⟨true, "s", "t", "u"⟩
        [⟨"cam", "video", true⟩]).disconnect.teardown = true ∧
    (Session.mk SessionState.Publishing ⟨true, "s", "t", "u"⟩
        [⟨"cam", "video", true⟩]).disconnect.session.disconnect.teardown = false :=
  ⟨rfl, (disconnect_idempotent Session.create).1,
    (disconnect_idempotent (Session.mk SessionState.Publishing ⟨true, "s", "t", "u"⟩
      [⟨"cam", "video", true⟩])).1, by decide,
    (disconnect_idempotent (Session.mk SessionState.Publishing ⟨true, "s", "t", "u"⟩
      [⟨"cam", "video", true⟩])).2.2.1⟩

theorem filter_ne_append_self (tracks : List Track) (t1 t2 : Track) (h : t1.id = t2.id) :
    (tracks.filter (fun t => decide (t.id ≠ t1.id)) ++ [t1]).filter
        (fun t => decide (t.id ≠ t2.id))
      = tracks.filter (fun t => decide (t.id ≠ t1.id)) := by
  rw [List.filter_append, ← h, List.filter_filter]
  simp

/-- C20: `add_track` is last-write-wins per track id: after two `add_track` calls with tracks of
the same id the registry holds exactly one association for that id, the track of the second
call, and the registry size is the same as after the first call. -/
theorem add_track_last_write_wins (s : Session) (t1 t2 : Track) (h : t1.id = t2.id) :
    ((s.add_track t1).add_track t2).associations t1.id = [t2] ∧
    ((s.add_track t1).add_track t2).registry_size = (s.add_track t1).registry_size := by
  have htracks : ((s.add_track t1).add_track t2).tracks
      = s.tracks.filter (fun t => decide (t.id ≠ t1.id)) ++ [t2] := by
    show (s.tracks.filter (fun t => decide (t.id ≠ t1.id)) ++ [t1]).filter
        (fun t => decide (t.id ≠ t2.id)) ++ [t2] = _
    rw [filter_ne_append_self _ _ _ h]
  constructor
  · unfold Session.associations
    rw [htracks, List.filter_append, List.filter_filter]
    simp [h]
  · unfold Session.registry_size
    rw [htracks]
    simp [Session.add_track]

/-- C20 at a concrete input: the track `cam` added twice to a session that holds `mic`. -/
theorem add_track_last_write_wins_witness :
    (((Session.mk SessionState.Idle ⟨false, "", "", ""⟩
        [⟨"mic", "audio", true⟩]).add_track ⟨"cam", "video", true⟩).add_track
        ⟨"cam", "video", false⟩).associations "cam" = [⟨"cam", "video", false⟩] ∧
    (((Session.mk SessionState.Idle ⟨false, "", "", ""⟩
        [⟨"mic", "audio", true⟩]).add_track ⟨"cam", "video", true⟩).add_track
        ⟨"cam", "video", false⟩).registry_size
      = ((Session.mk SessionState.Idle ⟨false, "", "", ""⟩
        [⟨"mic", "audio", true⟩]).add_track ⟨"cam", "video", true⟩).registry_size :=
  add_track_last_write_wins (Session.mk SessionState.Idle ⟨false, "", "", ""⟩
    [⟨"mic", "audio", true⟩]) ⟨"cam", "video", true⟩ ⟨"cam", "video", false⟩ rfl

end Millicast

/-! ## The order of callbacks in the demo and the teardown in main -/

namespace Millicast

theorem connectedFirst_snoc (trace : List TraceItem) (x : TraceItem)
    (h : ConnectedFirst trace)
    (hx : x = TraceItem.effect Effect.publish ∨ x = TraceItem.event Event.on_publishing →
      TraceItem.event Event.on_connected ∈ trace) :
    ConnectedFirst (trace ++ [x]) := by
  intro before y after heq hy
  rcases List.eq_nil_or_concat after with rfl | ⟨shorter, z, rfl⟩
  · have hsplit := List.append_inj' heq rfl
    have hxy : x = y := by
      have := hsplit.2
      simpa using this
    rw [← hsplit.1]
    exact hx (hxy ▸ hy)
  · have heq2 : trace ++ [x] = (before ++ y :: shorter) ++ [z] := by
      rw [heq]
      simp
    have hsplit := List.append_inj' heq2 rfl
    exact h before y shorter hsplit.1 hy

theorem connectedFirst_calls (calls : List SdkCall) :
    ConnectedFirst (calls.map TraceItem.call) := by
  intro before x after heq hx
  have hmem : x ∈ calls.map TraceItem.call := by
    rw [heq]
    exact List.mem_append_right _ (List.mem_cons_self _ _)
  obtain ⟨c, _, hc⟩ := List.mem_map.mp hmem
  rcases hx with rfl | rfl <;> cases hc

/-- What the demo keeps true at every step: the ordering holds in the trace, and an
`on_publishing` that is still pending was fired after `on_connected` was delivered. -/
theorem demo_invariant_step (d : DemoState) (s : DemoStep)
    (h1 : ConnectedFirst d.trace)
    (h2 : Event.on_publishing ∈ d.pending → TraceItem.event Event.on_connected ∈ d.trace) :
    ConnectedFirst (d.step s).trace ∧
    (Event.on_publishing ∈ (d.step s).pending →
      TraceItem.event Event.on_connected ∈ (d.step s).trace) := by
  cases s with
  | fire e =>
    refine ⟨h1, ?_⟩
    intro hmem
    have hmem2 : Event.on_publishing ∈ d.pending ++ [e.event] := hmem
    rcases List.mem_append.mp hmem2 with hp | hp
    · exact h2 hp
    · cases e <;> simp [SpontaneousEvent.event] at hp
  | deliver outcome =>
    cases hpend : d.pending with
    | nil =>
      have hstep : d.step (DemoStep.deliver outcome) = d := by
        simp [DemoState.step, hpend]
      rw [hstep]
      exact ⟨h1, h2⟩
    | cons e rest =>
      have hrest : Event.on_publishing ∈ rest →
          TraceItem.event Event.on_connected ∈ d.trace := by
        intro hmem
        exact h2 (by rw [hpend]; exact List.mem_cons_of_mem _ hmem)
      have hhead : e = Event.on_publishing →
          TraceItem.event Event.on_connected ∈ d.trace := by
        intro he
        exact h2 (by rw [hpend, he]; exact List.mem_cons_self _ _)
      cases e with
      | on_connected =>
        have hmem : TraceItem.event Event.on_connected
            ∈ d.trace ++ [TraceItem.event Event.on_connected] := by simp
        refine ⟨?_, ?_⟩
        · simp only [DemoState.step, hpend, MetadataPublisher.dispatch,
            MetadataPublisher.on_connected, List.foldl, DemoState.perform]
          refine connectedFirst_snoc _ _ (connectedFirst_snoc _ _ h1 ?_) (fun _ => hmem)
          rintro (h | h) <;> cases h
        · intro _
          simp [DemoState.step, hpend, MetadataPublisher.dispatch,
            MetadataPublisher.on_connected, DemoState.perform]
      | on_publishing =>
        have hc := hhead rfl
        refine ⟨?_, ?_⟩
        · simp only [DemoState.step, hpend, MetadataPublisher.dispatch,
            MetadataPublisher.on_publishing, List.foldl, DemoState.perform]
          refine connectedFirst_snoc _ _ (connectedFirst_snoc _ _ h1 (fun _ => hc)) ?_
          rintro (h | h) <;> cases h
        · intro _
          simp [DemoState.step, hpend, MetadataPublisher.dispatch,
            MetadataPublisher.on_publishing, DemoState.perform, hc]
      | on_connection_error status reason =>
        refine ⟨?_, ?_⟩
        · simp only [DemoState.step, hpend, MetadataPublisher.dispatch,
            MetadataPublisher.on_connection_error, List.foldl, DemoState.perform]
          refine connectedFirst_snoc _ _ (connectedFirst_snoc _ _ h1 ?_) ?_ <;>
            (rintro (h | h) <;> cases h)
        · intro hmem
          simp only [DemoState.step, hpend, MetadataPublisher.dispatch,
            MetadataPublisher.on_connection_error, List.foldl, DemoState.perform] at hmem ⊢
          simp [hrest hmem]
      | on_signaling_error message =>
        refine ⟨?_, ?_⟩
        · simp only [DemoState.step, hpend, MetadataPublisher.dispatch,
            MetadataPublisher.on_signaling_error, List.foldl, DemoState.perform]
          refine connectedFirst_snoc _ _ (connectedFirst_snoc _ _ h1 ?_) ?_ <;>
            (rintro (h | h) <;> cases h)
        · intro hmem
          simp only [DemoState.step, hpend, MetadataPublisher.dispatch,
            MetadataPublisher.on_signaling_error, List.foldl, DemoState.perform] at hmem ⊢
          simp [hrest hmem]
      | on_stats_report =>
        refine ⟨?_, ?_⟩
        · simp only [DemoState.step, hpend, MetadataPublisher.dispatch,
            MetadataPublisher.on_stats_report, List.foldl, DemoState.perform]
          refine connectedFirst_snoc _ _ h1 ?_
          rintro (h | h) <;> cases h
        · intro hmem
          simp only [DemoState.step, hpend, MetadataPublisher.dispatch,
            MetadataPublisher.on_stats_report, List.foldl, DemoState.perform] at hmem ⊢
          simp [hrest hmem]
      | on_viewer_count count =>
        refine ⟨?_, ?_⟩
        · simp only [DemoState.step, hpend, MetadataPublisher.dispatch,
            MetadataPublisher.on_viewer_count, List.foldl, DemoState.perform]
          refine connectedFirst_snoc _ _ (connectedFirst_snoc _ _ h1 ?_) ?_ <;>
            (rintro (h | h) <;> cases h)
        · intro hmem
          simp only [DemoState.step, hpend, MetadataPublisher.dispatch,
            MetadataPublisher.on_viewer_count, List.foldl, DemoState.perform] at hmem ⊢
          simp [hrest hmem]
      | on_publishing_error reason =>
        refine ⟨?_, ?_⟩
        · simp only [DemoState.step, hpend, MetadataPublisher.dispatch,
            MetadataPublisher.on_publishing_error, List.foldl, DemoState.perform]
          refine connectedFirst_snoc _ _ (connectedFirst_snoc _ _ h1 ?_) ?_ <;>
            (rintro (h | h) <;> cases h)
        · intro hmem
          simp only [DemoState.step, hpend, MetadataPublisher.dispatch,
            MetadataPublisher.on_publishing_error, List.foldl, DemoState.perform] at hmem ⊢
          simp [hrest hmem]
      | on_active =>
        refine ⟨?_, ?_⟩
        · simp only [DemoState.step, hpend, MetadataPublisher.dispatch,
            MetadataPublisher.on_active, List.foldl, DemoState.perform]
          refine connectedFirst_snoc _ _ h1 ?_
          rintro (h | h) <;> cases h
        · intro hmem
          simp only [DemoState.step, hpend, MetadataPublisher.dispatch,
            MetadataPublisher.on_active, List.foldl, DemoState.perform] at hmem ⊢
          simp [hrest hmem]
      | on_inactive =>
        refine ⟨?_, ?_⟩
        · simp only [DemoState.step, hpend, MetadataPublisher.dispatch,
            MetadataPublisher.on_inactive, List.foldl, DemoState.perform]
          refine connectedFirst_snoc _ _ h1 ?_
          rintro (h | h) <;> cases h
        · intro hmem
          simp only [DemoState.step, hpend, MetadataPublisher.dispatch,
            MetadataPublisher.on_inactive, List.foldl, DemoState.perform] at hmem ⊢
          simp [hrest hmem]
      | on_transformable_frame ssrc timestamp data =>
        refine ⟨?_, ?_⟩
        · simp only [DemoState.step, hpend, MetadataPublisher.dispatch, List.foldl,
            DemoState.perform]
          refine connectedFirst_snoc _ _ (connectedFirst_snoc _ _ h1 ?_) ?_ <;>
            (rintro (h | h) <;> cases h)
        · intro hmem
          simp only [DemoState.step, hpend, MetadataPublisher.dispatch, List.foldl,
            DemoState.perform] at hmem ⊢
          simp [hrest hmem]

end Millicast

namespace Millicast

theorem connect_fired_no_publishing (s : Session) (outcome : ConnectOutcome) :
    Event.on_publishing ∉ (s.connect outcome).fired := by
  unfold Session.connect
  split_ifs
  · simp
  · cases s.state <;> cases outcome <;> simp

theorem demo_invariant_start (self : MetadataPublisher) (video_sources : List VideoSource)
    (environ : String → Option String) (st : Option Publisher.Credentials)
    (connect_outcome : ConnectOutcome) :
    ConnectedFirst (DemoState.start self video_sources environ st connect_outcome).trace ∧
    (Event.on_publishing ∈ (DemoState.start self video_sources environ st connect_outcome).pending →
      TraceItem.event Event.on_connected
        ∈ (DemoState.start self video_sources environ st connect_outcome).trace) := by
  dsimp only [DemoState.start]
  split_ifs
  · exact ⟨connectedFirst_calls _, fun h => absurd h (connect_fired_no_publishing _ _)⟩
  · exact ⟨connectedFirst_calls _, fun h => absurd h (List.not_mem_nil _)⟩

theorem demo_invariant_steps (steps : List DemoStep) (d : DemoState)
    (h1 : ConnectedFirst d.trace)
    (h2 : Event.on_publishing ∈ d.pending → TraceItem.event Event.on_connected ∈ d.trace) :
    ConnectedFirst (steps.foldl DemoState.step d).trace := by
  induction steps generalizing d with
  | nil => exact h1
  | cons s rest ih =>
    rw [List.foldl_cons]
    exact ih (d.step s) (demo_invariant_step d s h1 h2).1 (demo_invariant_step d s h1 h2).2

/-- C12: `on_connected` calls `publish()` exactly once and does nothing else, no other callback
of `MetadataPublisher` calls `publish()`, and `run` does not call it; so in every trace of the
demo, for every environment, answer of the network and order of deliveries, each `publish()`
call and each `on_publishing` callback comes after an `on_connected` callback. -/
theorem publish_only_after_on_connected :
    (∀ self : MetadataPublisher, self.dispatch Event.on_connected = (self, [Effect.publish])) ∧
    (∀ (self : MetadataPublisher) (e : Event), e ≠ Event.on_connected →
      Effect.publish ∉ (self.dispatch e).2) ∧
    (∀ (self : MetadataPublisher) (video_sources : List VideoSource)
        (environ : String → Option String) (st : Option Publisher.Credentials)
        (connect_outcome : ConnectOutcome),
      TraceItem.effect Effect.publish
        ∉ (DemoState.start self video_sources environ st connect_outcome).trace) ∧
    (∀ (self : MetadataPublisher) (video_sources : List VideoSource)
        (environ : String → Option String) (st : Option Publisher.Credentials)
        (connect_outcome : ConnectOutcome) (steps : List DemoStep),
      ConnectedFirst (demo_trace self video_sources environ st connect_outcome steps)) := by
  refine ⟨fun _ => rfl, ?_, ?_, ?_⟩
  · intro self e he
    cases e <;>
      simp [MetadataPublisher.dispatch, MetadataPublisher.on_connection_error,
        MetadataPublisher.on_signaling_error, MetadataPublisher.on_stats_report,
        MetadataPublisher.on_viewer_count, MetadataPublisher.on_publishing,
        MetadataPublisher.on_publishing_error, MetadataPublisher.on_active,
        MetadataPublisher.on_inactive] at he ⊢
  · intro self video_sources environ st connect_outcome hmem
    have hcalls : ∀ calls : List SdkCall,
        TraceItem.effect Effect.publish ∉ calls.map TraceItem.call := by
      intro calls h
      obtain ⟨c, _, hc⟩ := List.mem_map.mp h
      cases hc
    dsimp only [DemoState.start] at hmem
    split_ifs at hmem
    · exact hcalls _ hmem
    · exact hcalls _ hmem
  · intro self video_sources environ st connect_outcome steps
    have hstart := demo_invariant_start self video_sources environ st connect_outcome
    exact demo_invariant_steps steps _ hstart.1 hstart.2

/-- C12 at a concrete input: the connection is established, a viewer count arrives, and three
deliveries follow; `on_connected`, `publish()`, `on_publishing` occur in this order. -/
theorem publish_only_after_on_connected_witness :
    StatsReport.Before (TraceItem.event Event.on_connected) (TraceItem.effect Effect.publish)
      (demo_trace (MetadataPublisher.new 0 0) [⟨⟨640, 480⟩⟩] sampleEnviron none
        ConnectOutcome.established
        [DemoStep.fire (SpontaneousEvent.viewer_count 2),
          DemoStep.deliver PublishOutcome.established,
          DemoStep.deliver PublishOutcome.established,
          DemoStep.deliver PublishOutcome.established]) ∧
    ConnectedFirst
      (demo_trace (MetadataPublisher.new 0 0) [⟨⟨640, 480⟩⟩] sampleEnviron none
        ConnectOutcome.established
        [DemoStep.fire (SpontaneousEvent.viewer_count 2),
          DemoStep.deliver PublishOutcome.established,
          DemoStep.deliver PublishOutcome.established,
          DemoStep.deliver PublishOutcome.established]) :=
  ⟨⟨(List.map TraceItem.call
        ((MetadataPublisher.new 0 0).run [⟨⟨640, 480⟩⟩] sampleEnviron none).trace), [],
      [TraceItem.event (Event.on_viewer_count 2),
        TraceItem.effect (Effect.log "Viewer Count : 2" LogLevel.MC_LOG),
        TraceItem.event Event.on_publishing,
        TraceItem.effect (Effect.log "Publishing" LogLevel.MC_LOG)], by decide⟩,
   publish_only_after_on_connected.2.2.2 (MetadataPublisher.new 0 0) [⟨⟨640, 480⟩⟩]
     sampleEnviron none ConnectOutcome.established
     [DemoStep.fire (SpontaneousEvent.viewer_count 2),
       DemoStep.deliver PublishOutcome.established,
       DemoStep.deliver PublishOutcome.established,
       DemoStep.deliver PublishOutcome.established]⟩

theorem main_eq (debug_build : Bool) (width height : Int) (video_sources : List VideoSource)
    (environ : String → Option String) :
    main debug_build width height video_sources environ =
      match ((MetadataPublisher.new width height).run video_sources environ none).thrown with
      | some _ =>
        ⟨(if debug_build then [MainStep.disable_rtc_logs] else [])
          ++ [MainStep.set_logger] ++ [MainStep.create_Publisher, MainStep.set_listener]
          ++ ((MetadataPublisher.new width height).run video_sources environ none).trace.map
            MainStep.run, none⟩
      | none =>
        ⟨(if debug_build then [MainStep.disable_rtc_logs] else [])
          ++ [MainStep.set_logger] ++ [MainStep.create_Publisher, MainStep.set_listener]
          ++ ((MetadataPublisher.new width height).run video_sources environ none).trace.map
            MainStep.run
          ++ [MainStep.destroy_MetadataPublisher, MainStep.destroy_Publisher]
          ++ [MainStep.cleanup], some 0⟩ := rfl

/-- C15: on every execution of `main` that returns, `Client::cleanup()` is called exactly once
and is the last step: it comes right after the destruction of the `MetadataPublisher` and of the
`Publisher` it owns, after the logger sink was set and the publisher created, and nothing, so no
creation or use of an SDK object, follows it. -/
theorem main_cleanup_after_destruction (debug_build : Bool) (width height : Int)
    (video_sources : List VideoSource) (environ : String → Option String) (value : Int)
    (h : (main debug_build width height video_sources environ).returned = some value) :
    ∃ before,
      (main debug_build width height video_sources environ).trace =
        before ++ [MainStep.destroy_MetadataPublisher, MainStep.destroy_Publisher,
          MainStep.cleanup] ∧
      MainStep.cleanup ∉ before ∧
      MainStep.set_logger ∈ before ∧
      MainStep.create_Publisher ∈ before ∧
      (main debug_build width height video_sources environ).trace.count MainStep.cleanup = 1 := by
  rw [main_eq] at h ⊢
  cases hthrown : ((MetadataPublisher.new width height).run video_sources environ none).thrown with
  | some what =>
    rw [hthrown] at h
    cases h
  | none =>
    have hrun : ∀ calls : List SdkCall, MainStep.cleanup ∉ calls.map MainStep.run := by
      intro calls hmem
      obtain ⟨c, _, hc⟩ := List.mem_map.mp hmem
      cases hc
    have hcount : ∀ calls : List SdkCall,
        (calls.map MainStep.run).count MainStep.cleanup = 0 :=
      fun calls => List.count_eq_zero.mpr (hrun calls)
    refine ⟨(if debug_build then [MainStep.disable_rtc_logs] else [])
      ++ [MainStep.set_logger] ++ [MainStep.create_Publisher, MainStep.set_listener]
      ++ ((MetadataPublisher.new width height).run video_sources environ none).trace.map
        MainStep.run, ?_, ?_, ?_, ?_, ?_⟩
    · simp
    · intro hmem
      rcases List.mem_append.mp hmem with h1 | h1
      · cases debug_build <;> simp at h1
      · exact hrun _ h1
    · cases debug_build <;> simp
    · cases debug_build <;> simp
    · simp only [List.count_append, hcount]
      cases debug_build <;> decide

/-- C15 at a concrete input: no video source is found, `run` returns at once and `main` returns
0 after the destruction and the cleanup. -/
theorem main_cleanup_after_destruction_witness :
    (main false 0 0 [] (fun _ => none)).returned = some 0 ∧
    ∃ before,
      (main false 0 0 [] (fun _ => none)).trace =
        before ++ [MainStep.destroy_MetadataPublisher, MainStep.destroy_Publisher,
          MainStep.cleanup] ∧
      MainStep.cleanup ∉ before ∧
      MainStep.set_logger ∈ before ∧
      MainStep.create_Publisher ∈ before ∧
      (main false 0 0 [] (fun _ => none)).trace.count MainStep.cleanup = 1 :=
  ⟨rfl, main_cleanup_after_destruction false 0 0 [] (fun _ => none) 0 rfl⟩

end Millicast

/-! ## The encoding of a coordinate and the bounce of the point -/

namespace Millicast

theorem read_be32_eq (b0 b1 b2 b3 : Nat) (h0 : b0 < 256) (h1 : b1 < 256) (h2 : b2 < 256)
    (h3 : b3 < 256) (value : Int) (hv : IsInt32 value)
    (hsum : (b0 : Int) * 16777216 + (b1 : Int) * 65536 + (b2 : Int) * 256 + (b3 : Int)
      = value % 4294967296) :
    read_be32 b0 b1 b2 b3 = value := by
  unfold read_be32
  unfold IsInt32 at hv
  split_ifs with hsign
  · push_cast
    omega
  · push_cast
    omega

/-- C21: the four bytes `b0, b1, b2, b3` that `encode(value, data)` appends satisfy
`b0*2^24 + b1*2^16 + b2*2^8 + b3 = value mod 2^32`; for every `int32_t` value, negative ones
included, reading them back as a big-endian two's-complement 32-bit integer yields `value`, and
two `int32_t` values with the same bytes are equal. -/
theorem encode_round_trips :
    (∀ (value : Int) (data : List Nat), ∃ b0 b1 b2 b3 : Nat,
      MetadataPublisher.encode value data = data ++ [b0, b1, b2, b3] ∧
      (b0 < 256 ∧ b1 < 256 ∧ b2 < 256 ∧ b3 < 256) ∧
      (b0 : Int) * 16777216 + (b1 : Int) * 65536 + (b2 : Int) * 256 + (b3 : Int)
        = value % 4294967296 ∧
      (IsInt32 value → read_be32 b0 b1 b2 b3 = value)) ∧
    (∀ (v w : Int) (data : List Nat), IsInt32 v → IsInt32 w →
      MetadataPublisher.encode v data = MetadataPublisher.encode w data → v = w) := by
  have hbytes : ∀ (value : Int) (data : List Nat), ∃ b0 b1 b2 b3 : Nat,
      MetadataPublisher.encode value data = data ++ [b0, b1, b2, b3] ∧
      (b0 < 256 ∧ b1 < 256 ∧ b2 < 256 ∧ b3 < 256) ∧
      (b0 : Int) * 16777216 + (b1 : Int) * 65536 + (b2 : Int) * 256 + (b3 : Int)
        = value % 4294967296 := by
    intro value data
    exact ⟨to_uint8 (and32 (value >>> (24 : Nat)) 0xff),
      to_uint8 (and32 (value >>> (16 : Nat)) 0xff),
      to_uint8 (and32 (value >>> (8 : Nat)) 0xff), to_uint8 (and32 value 0xff),
      encode_eq value data,
      ⟨to_uint8_lt _, to_uint8_lt _, to_uint8_lt _, to_uint8_lt _⟩, encode_digits value⟩
  constructor
  · intro value data
    obtain ⟨b0, b1, b2, b3, heq, hlt, hsum⟩ := hbytes value data
    exact ⟨b0, b1, b2, b3, heq, hlt, hsum,
      fun hv => read_be32_eq b0 b1 b2 b3 hlt.1 hlt.2.1 hlt.2.2.1 hlt.2.2.2 value hv hsum⟩
  · intro v w data hv hw heq
    obtain ⟨b0, b1, b2, b3, hv1, hvlt, hvsum⟩ := hbytes v data
    obtain ⟨c0, c1, c2, c3, hw1, _, hwsum⟩ := hbytes w data
    rw [hv1, hw1] at heq
    have hlist := List.append_cancel_left heq
    simp only [List.cons.injEq, and_true] at hlist
    obtain ⟨e0, e1, e2, e3⟩ := hlist
    subst e0 e1 e2 e3
    unfold IsInt32 at hv hw
    omega

/-- C21 at a concrete input: the value `-2` is written as `ff ff ff fe` and read back. -/
theorem encode_round_trips_witness :
    IsInt32 (-2) ∧ MetadataPublisher.encode (-2) [7] = [7, 255, 255, 255, 254] ∧
    read_be32 255 255 255 254 = -2 ∧
    ∃ b0 b1 b2 b3 : Nat,
      MetadataPublisher.encode (-2) [7] = [7] ++ [b0, b1, b2, b3] ∧
      (b0 < 256 ∧ b1 < 256 ∧ b2 < 256 ∧ b3 < 256) ∧
      (b0 : Int) * 16777216 + (b1 : Int) * 65536 + (b2 : Int) * 256 + (b3 : Int)
        = (-2) % 4294967296 ∧
      (IsInt32 (-2) → read_be32 b0 b1 b2 b3 = -2) :=
  ⟨by unfold IsInt32; decide, by decide, by decide, encode_round_trips.1 (-2) [7]⟩

/-- C22: the metadata writers only append: `encode(value, data)` leaves the previous contents of
`data` as an unchanged prefix and makes it 4 bytes longer, and `on_transformable_frame` leaves
the previous contents as an unchanged prefix and makes it 8 bytes longer, whether `data` was
empty or not. -/
theorem writers_only_append :
    (∀ (value : Int) (data : List Nat), ∃ appended : List Nat,
      MetadataPublisher.encode value data = data ++ appended ∧ appended.length = 4 ∧
      (MetadataPublisher.encode value data).length = data.length + 4) ∧
    (∀ (self : MetadataPublisher) (ssrc timestamp : Nat) (data : List Nat),
      ∃ appended : List Nat,
        (self.on_transformable_frame ssrc timestamp data).2 = data ++ appended ∧
        appended.length = 8 ∧
        (self.on_transformable_frame ssrc timestamp data).2.length = data.length + 8) := by
  constructor
  · intro value data
    refine ⟨_, encode_eq value data, rfl, ?_⟩
    rw [encode_eq]
    simp
  · intro self ssrc timestamp data
    refine ⟨MetadataPublisher.encode (self.on_transformable_frame ssrc timestamp data).1.pos_y
      (MetadataPublisher.encode (self.on_transformable_frame ssrc timestamp data).1.pos_x []),
      ?_, ?_, ?_⟩
    · rw [on_transformable_frame_data, encode_eq, encode_eq, encode_eq, encode_eq]
      simp
    · rw [encode_eq, encode_eq]
      rfl
    · rw [on_transformable_frame_data, encode_eq, encode_eq]
      simp

/-- C23: for every state with `width >= 0` and `height >= 0`, whatever `pos_x`, `pos_y`,
`dir_x`, `dir_y` were, after `on_transformable_frame` the position satisfies
`0 <= pos_x <= width` and `0 <= pos_y <= height`, `width` and `height` are unchanged, and the
two coordinates written to `data` are this position. -/
theorem position_stays_inside_frame (self : MetadataPublisher) (ssrc timestamp : Nat)
    (data : List Nat) (hw : 0 ≤ self.width) (hh : 0 ≤ self.height) :
    (0 ≤ (self.on_transformable_frame ssrc timestamp data).1.pos_x ∧
      (self.on_transformable_frame ssrc timestamp data).1.pos_x ≤ self.width) ∧
    (0 ≤ (self.on_transformable_frame ssrc timestamp data).1.pos_y ∧
      (self.on_transformable_frame ssrc timestamp data).1.pos_y ≤ self.height) ∧
    (self.on_transformable_frame ssrc timestamp data).1.width = self.width ∧
    (self.on_transformable_frame ssrc timestamp data).1.height = self.height ∧
    (self.on_transformable_frame ssrc timestamp data).2 =
      MetadataPublisher.encode (self.on_transformable_frame ssrc timestamp data).1.pos_y
        (MetadataPublisher.encode (self.on_transformable_frame ssrc timestamp data).1.pos_x
          data) :=
  ⟨on_transformable_frame_pos_x self ssrc timestamp data hw,
   on_transformable_frame_pos_y self ssrc timestamp data hh, rfl, rfl, rfl⟩

/-- C23 at a concrete input: a point far outside a 640x480 frame is brought back to the
border. -/
theorem position_stays_inside_frame_witness :
    ((MetadataPublisher.mk Publisher.create 640 480 5000 (-70) 1 1).on_transformable_frame
      1 2 []).1.pos_x = 640 ∧
    ((MetadataPublisher.mk Publisher.create 640 480 5000 (-70) 1 1).on_transformable_frame
      1 2 []).1.pos_y = 0 ∧
    (0 ≤ ((MetadataPublisher.mk Publisher.create 640 480 5000 (-70) 1 1).on_transformable_frame
      1 2 []).1.pos_x ∧
      ((MetadataPublisher.mk Publisher.create 640 480 5000 (-70) 1 1).on_transformable_frame
        1 2 []).1.pos_x ≤ 640) :=
  ⟨by decide, by decide,
   (position_stays_inside_frame (MetadataPublisher.mk Publisher.create 640 480 5000 (-70) 1 1)
      1 2 [] (by decide) (by decide)).1⟩

end Millicast

namespace Millicast

theorem on_transformable_frame_axes (self : MetadataPublisher) (ssrc timestamp : Nat)
    (data : List Nat) :
    (self.on_transformable_frame ssrc timestamp data).1.pos_x
        = (MetadataPublisher.axis_step self.pos_x self.dir_x self.width).1 ∧
    (self.on_transformable_frame ssrc timestamp data).1.dir_x
        = (MetadataPublisher.axis_step self.pos_x self.dir_x self.width).2 ∧
    (self.on_transformable_frame ssrc timestamp data).1.pos_y
        = (MetadataPublisher.axis_step self.pos_y self.dir_y self.height).1 ∧
    (self.on_transformable_frame ssrc timestamp data).1.dir_y
        = (MetadataPublisher.axis_step self.pos_y self.dir_y self.height).2 ∧
    (self.on_transformable_frame ssrc timestamp data).1.width = self.width ∧
    (self.on_transformable_frame ssrc timestamp data).1.height = self.height ∧
    (self.on_transformable_frame ssrc timestamp data).1._publisher = self._publisher :=
  ⟨rfl, rfl, rfl, rfl, rfl, rfl, rfl⟩

theorem wrap8_neg_unit (dir : Int) (h : dir = 1 ∨ dir = -1) : wrap8 (dir * -1) = -dir := by
  rcases h with rfl | rfl <;> decide

theorem wrap32_of_isInt32 (v : Int) (h : IsInt32 v) : wrap32 v = v := by
  unfold IsInt32 at h
  unfold wrap32
  omega

theorem clamp_eq_max_min (v lo hi : Int) (h : lo ≤ hi) : clamp v lo hi = max lo (min hi v) := by
  unfold clamp
  split_ifs <;> omega

theorem bounce_reference_dir (pos dir limit : Int) (hdir : dir = 1 ∨ dir = -1) :
    (bounce_reference pos dir limit).2 = 1 ∨ (bounce_reference pos dir limit).2 = -1 := by
  unfold bounce_reference
  dsimp only
  split_ifs <;> omega

theorem axis_step_eq_reference (pos dir limit : Int) (h0 : 0 ≤ pos) (h1 : pos ≤ limit)
    (hdir : dir = 1 ∨ dir = -1) (hlimit : limit ≤ 2147483637) :
    MetadataPublisher.axis_step pos dir limit = bounce_reference pos dir limit ∧
    wrap32 (pos + (bounce_reference pos dir limit).2 * 10)
      = pos + 10 * (bounce_reference pos dir limit).2 ∧
    ((bounce_reference pos dir limit).2 * 10 = 10 ∨
      (bounce_reference pos dir limit).2 * 10 = -10) := by
  have hd := bounce_reference_dir pos dir limit hdir
  have hno : wrap32 (pos + (bounce_reference pos dir limit).2 * 10)
      = pos + 10 * (bounce_reference pos dir limit).2 := by
    rw [wrap32_of_isInt32]
    · omega
    · unfold IsInt32
      rcases hd with hd | hd <;> rw [hd] <;> omega
  refine ⟨?_, hno, by omega⟩
  have hstep : MetadataPublisher.axis_step pos dir limit
      = (clamp (wrap32 (pos + (bounce_reference pos dir limit).2 * 10)) 0 limit,
          (bounce_reference pos dir limit).2) := by
    simp only [MetadataPublisher.axis_step, bounce_reference, wrap8_neg_unit dir hdir]
  rw [hstep, hno, clamp_eq_max_min _ _ _ (le_trans h0 h1)]
  rfl

theorem axis_step_dir_unit (pos dir limit : Int) (hdir : dir = 1 ∨ dir = -1) :
    (MetadataPublisher.axis_step pos dir limit).2 = 1 ∨
      (MetadataPublisher.axis_step pos dir limit).2 = -1 := by
  unfold MetadataPublisher.axis_step
  simp only [wrap8_neg_unit dir hdir]
  rcases hdir with rfl | rfl <;> split_ifs <;> simp

theorem bouncing_step (pos dir limit : Int) (h : Bouncing pos dir limit) (h2 : 2 ≤ limit)
    (hlimit : limit ≤ 2147483637) :
    Bouncing (MetadataPublisher.axis_step pos dir limit).1
      (MetadataPublisher.axis_step pos dir limit).2 limit ∧
    (MetadataPublisher.axis_step pos dir limit).1 ≠ pos := by
  have hdir : dir = 1 ∨ dir = -1 := by
    rcases h with h | h | h
    · exact h.2.2
    · exact Or.inl h.2
    · exact Or.inr h.2
  have h0 : 0 ≤ pos := by rcases h with h | h | h <;> omega
  have h1 : pos ≤ limit := by rcases h with h | h | h <;> omega
  rw [(axis_step_eq_reference pos dir limit h0 h1 hdir hlimit).1]
  have hp : (bounce_reference pos dir limit).1
      = max 0 (min limit (pos + 10 * (bounce_reference pos dir limit).2)) := rfl
  have hd : (bounce_reference pos dir limit).2
      = if pos = limit ∨ pos = 0 then -dir else dir := rfl
  rw [hp]
  generalize (bounce_reference pos dir limit).2 = d at hd ⊢
  unfold Bouncing at h ⊢
  split_ifs at hd with hborder <;> omega

end Millicast

namespace Millicast

theorem after_frames_cons (self : MetadataPublisher) (frame : Nat × Nat)
    (frames : List (Nat × Nat)) :
    self.after_frames (frame :: frames)
      = ((self.on_transformable_frame frame.1 frame.2 []).1).after_frames frames := rfl

theorem after_frames_append (self : MetadataPublisher) (first later : List (Nat × Nat)) :
    self.after_frames (first ++ later) = (self.after_frames first).after_frames later := by
  unfold MetadataPublisher.after_frames
  rw [List.foldl_append]

theorem after_frames_width_height (frames : List (Nat × Nat)) (self : MetadataPublisher) :
    (self.after_frames frames).width = self.width ∧
      (self.after_frames frames).height = self.height := by
  induction frames generalizing self with
  | nil => exact ⟨rfl, rfl⟩
  | cons frame rest ih =>
    rw [after_frames_cons]
    exact ih _

theorem bouncing_start (limit : Int) (h : 2 ≤ limit) : Bouncing (limit.tdiv 2) 1 limit := by
  unfold Bouncing
  rw [Int.tdiv_eq_ediv (by omega) (by omega)]
  omega

theorem bouncing_after_frames_x (frames : List (Nat × Nat)) (self : MetadataPublisher)
    (h : Bouncing self.pos_x self.dir_x self.width) (h2 : 2 ≤ self.width)
    (hlimit : self.width ≤ 2147483637) :
    Bouncing (self.after_frames frames).pos_x (self.after_frames frames).dir_x self.width := by
  induction frames generalizing self with
  | nil => exact h
  | cons frame rest ih =>
    rw [after_frames_cons]
    have hax := on_transformable_frame_axes self frame.1 frame.2 []
    have hstep := (bouncing_step self.pos_x self.dir_x self.width h h2 hlimit).1
    have := ih (self.on_transformable_frame frame.1 frame.2 []).1
      (by rw [hax.1, hax.2.1, hax.2.2.2.2.1]; exact hstep)
      (by rw [hax.2.2.2.2.1]; exact h2) (by rw [hax.2.2.2.2.1]; exact hlimit)
    rw [hax.2.2.2.2.1] at this
    exact this

theorem bouncing_after_frames_y (frames : List (Nat × Nat)) (self : MetadataPublisher)
    (h : Bouncing self.pos_y self.dir_y self.height) (h2 : 2 ≤ self.height)
    (hlimit : self.height ≤ 2147483637) :
    Bouncing (self.after_frames frames).pos_y (self.after_frames frames).dir_y self.height := by
  induction frames generalizing self with
  | nil => exact h
  | cons frame rest ih =>
    rw [after_frames_cons]
    have hax := on_transformable_frame_axes self frame.1 frame.2 []
    have hstep := (bouncing_step self.pos_y self.dir_y self.height h h2 hlimit).1
    have := ih (self.on_transformable_frame frame.1 frame.2 []).1
      (by rw [hax.2.2.1, hax.2.2.2.1, hax.2.2.2.2.2.1]; exact hstep)
      (by rw [hax.2.2.2.2.2.1]; exact h2) (by rw [hax.2.2.2.2.2.1]; exact hlimit)
    rw [hax.2.2.2.2.2.1] at this
    exact this

theorem axis_step_inside (pos limit : Int) (h0 : 0 < pos) (h1 : pos + 10 ≤ limit)
    (hlimit : limit ≤ 2147483647) :
    MetadataPublisher.axis_step pos 1 limit = (pos + 10, 1) := by
  have hborder : ¬ (pos = limit ∨ pos = 0) := by omega
  have hno : wrap32 (pos + 1 * 10) = pos + 10 := by
    rw [wrap32_of_isInt32]
    · omega
    · unfold IsInt32
      omega
  simp only [MetadataPublisher.axis_step, hborder, if_false, hno]
  rw [clamp_eq_max_min _ _ _ (by omega)]
  congr 1
  omega

theorem after_frames_run_up (frames : List (Nat × Nat)) (self : MetadataPublisher)
    (hd : self.dir_x = 1) (hp : 0 < self.pos_x)
    (hlt : self.pos_x + 10 * (frames.length : Int) ≤ self.width)
    (hw : self.width ≤ 2147483647) :
    (self.after_frames frames).pos_x = self.pos_x + 10 * (frames.length : Int) ∧
    (self.after_frames frames).dir_x = 1 ∧
    (self.after_frames frames).width = self.width := by
  induction frames generalizing self with
  | nil => exact ⟨by simp [MetadataPublisher.after_frames], hd, rfl⟩
  | cons frame rest ih =>
    rw [after_frames_cons]
    have hax := on_transformable_frame_axes self frame.1 frame.2 []
    have hlen : ((frame :: rest).length : Int) = (rest.length : Int) + 1 := by
      rw [List.length_cons]
      push_cast
      rfl
    rw [hlen] at hlt ⊢
    have hstep : MetadataPublisher.axis_step self.pos_x self.dir_x self.width
        = (self.pos_x + 10, 1) := by
      rw [hd]
      exact axis_step_inside _ _ hp (by omega) hw
    rw [hstep] at hax
    have := ih (self.on_transformable_frame frame.1 frame.2 []).1 hax.2.1
      (by rw [hax.1]; omega) (by rw [hax.1, hax.2.2.2.2.1]; omega)
      (by rw [hax.2.2.2.2.1]; exact hw)
    rw [hax.1, hax.2.2.2.2.1] at this
    refine ⟨by rw [this.1]; omega, this.2.1, this.2.2⟩

theorem wideFrameStart_eq :
    wideFrameStart = MetadataPublisher.mk
      (Publisher.mk ⟨true, "metadata-demo", "secret",
        "https://director.millicast.com/api/director/publish"⟩)
      2147483647 480 1073741823 240 1 1 := by
  decide

end Millicast

namespace Millicast

/-- C24 as stated fails for a frame as wide as `int32_t` allows: from the state `run`
establishes for width 2147483647 (`pos_x = 1073741823`, `dir_x = 1`), after 107374183 calls
the 32-bit addition has wrapped and the point sits at `pos_x = 0` with `dir_x = +1`; the next
call leaves `pos_x` at 0. -/
theorem bounce_stuck_after_wrap :
    wideFrameStart.width = 2147483647 ∧
    wideFrameStart.pos_x = wideFrameStart.width.tdiv 2 ∧
    wideFrameStart.dir_x = 1 ∧
    (wideFrameStart.after_frames (List.replicate 107374183 (0, 0))).pos_x = 0 ∧
    (wideFrameStart.after_frames (List.replicate 107374183 (0, 0))).dir_x = 1 ∧
    ((wideFrameStart.after_frames (List.replicate 107374183 (0, 0))).on_transformable_frame
        0 0 []).1.pos_x
      = (wideFrameStart.after_frames (List.replicate 107374183 (0, 0))).pos_x := by
  have hstart := wideFrameStart_eq
  have hw : wideFrameStart.width = 2147483647 := by rw [hstart]
  have hp : wideFrameStart.pos_x = 1073741823 := by rw [hstart]
  have hd : wideFrameStart.dir_x = 1 := by rw [hstart]
  have hlen : ((List.replicate 107374182 ((0, 0) : Nat × Nat)).length : Int) = 107374182 := by
    rw [List.length_replicate]
    rfl
  have hup := after_frames_run_up (List.replicate 107374182 ((0, 0) : Nat × Nat))
    wideFrameStart hd (by rw [hp]; decide) (by rw [hlen, hp, hw]; decide) (by rw [hw])
  rw [hlen, hp, hw] at hup
  have hsplit : List.replicate 107374183 ((0, 0) : Nat × Nat)
      = List.replicate 107374182 (0, 0) ++ [(0, 0)] := by
    show List.replicate (107374182 + 1) ((0, 0) : Nat × Nat) = _
    exact List.replicate_succ' 107374182 (0, 0)
  rw [hsplit, after_frames_append]
  generalize wideFrameStart.after_frames (List.replicate 107374182 ((0, 0) : Nat × Nat)) = s1
    at hup ⊢
  have hax1 := on_transformable_frame_axes s1 0 0 []
  rw [hup.1, hup.2.1, hup.2.2] at hax1
  have hone : s1.after_frames [(0, 0)] = (s1.on_transformable_frame 0 0 []).1 := rfl
  rw [hone]
  have hstep1 : MetadataPublisher.axis_step (1073741823 + 10 * 107374182) 1 2147483647
      = (0, 1) := by decide
  rw [hstep1] at hax1
  dsimp only at hax1
  have hax2 := on_transformable_frame_axes (s1.on_transformable_frame 0 0 []).1 0 0 []
  rw [hax1.1, hax1.2.1, hax1.2.2.2.2.1] at hax2
  have hstep2 : MetadataPublisher.axis_step 0 1 2147483647 = (0, -1) := by decide
  rw [hstep2] at hax2
  dsimp only at hax2
  refine ⟨hw, ?_, hd, hax1.1, hax1.2.1, ?_⟩
  · rw [hp, hw]
    decide
  · rw [hax2.1, hax1.1]

/-- C24 amended: starting from the state `run` establishes (`pos_x = width / 2`, `dir_x = +1`)
with `2 <= width <= 2^31 - 11`, in every sequence of `on_transformable_frame` calls each call
changes `pos_x`, and in every state reached `pos_x = width` implies `dir_x = +1` and `pos_x = 0`
implies `dir_x = -1`; the same holds for `pos_y`, `dir_y` with `2 <= height <= 2^31 - 11`. -/
theorem bounce_never_stuck (self : MetadataPublisher) (frames : List (Nat × Nat))
    (ssrc timestamp : Nat) :
    (2 ≤ self.width → self.width ≤ 2147483637 → self.pos_x = self.width.tdiv 2 →
      self.dir_x = 1 →
      ((self.after_frames frames).on_transformable_frame ssrc timestamp []).1.pos_x
        ≠ (self.after_frames frames).pos_x ∧
      ((self.after_frames frames).pos_x = (self.after_frames frames).width →
        (self.after_frames frames).dir_x = 1) ∧
      ((self.after_frames frames).pos_x = 0 → (self.after_frames frames).dir_x = -1)) ∧
    (2 ≤ self.height → self.height ≤ 2147483637 → self.pos_y = self.height.tdiv 2 →
      self.dir_y = 1 →
      ((self.after_frames frames).on_transformable_frame ssrc timestamp []).1.pos_y
        ≠ (self.after_frames frames).pos_y ∧
      ((self.after_frames frames).pos_y = (self.after_frames frames).height →
        (self.after_frames frames).dir_y = 1) ∧
      ((self.after_frames frames).pos_y = 0 → (self.after_frames frames).dir_y = -1)) := by
  have hwh := after_frames_width_height frames self
  have hax := on_transformable_frame_axes (self.after_frames frames) ssrc timestamp []
  constructor
  · intro h2 hlimit hpos hdir
    have hstart : Bouncing self.pos_x self.dir_x self.width := by
      rw [hpos, hdir]
      exact bouncing_start _ h2
    have hb := bouncing_after_frames_x frames self hstart h2 hlimit
    have hnext := (bouncing_step _ _ _ hb h2 hlimit).2
    rw [hax.1, hwh.1]
    refine ⟨hnext, ?_, ?_⟩
    · intro heq
      unfold Bouncing at hb
      omega
    · intro heq
      unfold Bouncing at hb
      omega
  · intro h2 hlimit hpos hdir
    have hstart : Bouncing self.pos_y self.dir_y self.height := by
      rw [hpos, hdir]
      exact bouncing_start _ h2
    have hb := bouncing_after_frames_y frames self hstart h2 hlimit
    have hnext := (bouncing_step _ _ _ hb h2 hlimit).2
    rw [hax.2.2.1, hwh.2]
    refine ⟨hnext, ?_, ?_⟩
    · intro heq
      unfold Bouncing at hb
      omega
    · intro heq
      unfold Bouncing at hb
      omega

/-- C24 amended at a concrete input: a 640x480 frame, the state after two calls. -/
theorem bounce_never_stuck_witness :
    (((MetadataPublisher.mk Publisher.create 640 480 320 240 1 1).after_frames
        [(7, 0), (7, 3000)]).on_transformable_frame 7 6000 []).1.pos_x
      ≠ ((MetadataPublisher.mk Publisher.create 640 480 320 240 1 1).after_frames
        [(7, 0), (7, 3000)]).pos_x ∧
    ((MetadataPublisher.mk Publisher.create 640 480 320 240 1 1).after_frames
        [(7, 0), (7, 3000)]).pos_x = 340 :=
  ⟨((bounce_never_stuck (MetadataPublisher.mk Publisher.create 640 480 320 240 1 1)
      [(7, 0), (7, 3000)] 7 6000).1 (by decide) (by decide) (by decide) rfl).1, by decide⟩

/-- C25: for every state with `0 <= pos_x <= width`, `dir_x` in `{-1, +1}` and
`width <= 2^31 - 11`, `on_transformable_frame` sets `dir_x` to `-dir_x` if `pos_x = width` or
`pos_x = 0` and leaves it otherwise, and sets `pos_x` to `clamp(pos_x + 10*dir_x', 0, width)`,
the reference definition over the integers: the conversion back to `int8_t` and the 32-bit
addition do not wrap, and the product is `+10` or `-10`. Likewise for `pos_y`, `dir_y`,
`height`. The object afterwards does not depend on `ssrc`, `timestamp` or `data`, and each axis
depends only on its own position, direction and limit. -/
theorem bounce_step_equals_reference (self : MetadataPublisher) (ssrc timestamp : Nat)
    (data : List Nat) :
    (0 ≤ self.pos_x → self.pos_x ≤ self.width → (self.dir_x = 1 ∨ self.dir_x = -1) →
      self.width ≤ 2147483637 →
      ((self.on_transformable_frame ssrc timestamp data).1.pos_x,
          (self.on_transformable_frame ssrc timestamp data).1.dir_x)
        = bounce_reference self.pos_x self.dir_x self.width ∧
      (self.on_transformable_frame ssrc timestamp data).1.dir_x
        = (if self.pos_x = self.width ∨ self.pos_x = 0 then -self.dir_x else self.dir_x) ∧
      (self.on_transformable_frame ssrc timestamp data).1.pos_x
        = clamp (self.pos_x + 10 * (self.on_transformable_frame ssrc timestamp data).1.dir_x)
            0 self.width ∧
      wrap8 (self.dir_x * -1) = -self.dir_x ∧
      ((self.on_transformable_frame ssrc timestamp data).1.dir_x * 10 = 10 ∨
        (self.on_transformable_frame ssrc timestamp data).1.dir_x * 10 = -10) ∧
      wrap32 (self.pos_x + (self.on_transformable_frame ssrc timestamp data).1.dir_x * 10)
        = self.pos_x + 10 * (self.on_transformable_frame ssrc timestamp data).1.dir_x) ∧
    (0 ≤ self.pos_y → self.pos_y ≤ self.height → (self.dir_y = 1 ∨ self.dir_y = -1) →
      self.height ≤ 2147483637 →
      ((self.on_transformable_frame ssrc timestamp data).1.pos_y,
          (self.on_transformable_frame ssrc timestamp data).1.dir_y)
        = bounce_reference self.pos_y self.dir_y self.height ∧
      (self.on_transformable_frame ssrc timestamp data).1.dir_y
        = (if self.pos_y = self.height ∨ self.pos_y = 0 then -self.dir_y else self.dir_y) ∧
      (self.on_transformable_frame ssrc timestamp data).1.pos_y
        = clamp (self.pos_y + 10 * (self.on_transformable_frame ssrc timestamp data).1.dir_y)
            0 self.height ∧
      wrap8 (self.dir_y * -1) = -self.dir_y ∧
      ((self.on_transformable_frame ssrc timestamp data).1.dir_y * 10 = 10 ∨
        (self.on_transformable_frame ssrc timestamp data).1.dir_y * 10 = -10) ∧
      wrap32 (self.pos_y + (self.on_transformable_frame ssrc timestamp data).1.dir_y * 10)
        = self.pos_y + 10 * (self.on_transformable_frame ssrc timestamp data).1.dir_y) ∧
    (∀ (ssrc2 timestamp2 : Nat) (data2 : List Nat),
      (self.on_transformable_frame ssrc2 timestamp2 data2).1
        = (self.on_transformable_frame ssrc timestamp data).1) ∧
    (∀ other : MetadataPublisher,
      (other.pos_x = self.pos_x → other.dir_x = self.dir_x → other.width = self.width →
        (other.on_transformable_frame ssrc timestamp data).1.pos_x
            = (self.on_transformable_frame ssrc timestamp data).1.pos_x ∧
          (other.on_transformable_frame ssrc timestamp data).1.dir_x
            = (self.on_transformable_frame ssrc timestamp data).1.dir_x) ∧
      (other.pos_y = self.pos_y → other.dir_y = self.dir_y → other.height = self.height →
        (other.on_transformable_frame ssrc timestamp data).1.pos_y
            = (self.on_transformable_frame ssrc timestamp data).1.pos_y ∧
          (other.on_transformable_frame ssrc timestamp data).1.dir_y
            = (self.on_transformable_frame ssrc timestamp data).1.dir_y)) := by
  have hax := on_transformable_frame_axes self ssrc timestamp data
  have haxis : ∀ pos dir limit : Int, 0 ≤ pos → pos ≤ limit → (dir = 1 ∨ dir = -1) →
      limit ≤ 2147483637 →
      ((MetadataPublisher.axis_step pos dir limit).1, (MetadataPublisher.axis_step pos dir limit).2)
        = bounce_reference pos dir limit ∧
      (MetadataPublisher.axis_step pos dir limit).2
        = (if pos = limit ∨ pos = 0 then -dir else dir) ∧
      (MetadataPublisher.axis_step pos dir limit).1
        = clamp (pos + 10 * (MetadataPublisher.axis_step pos dir limit).2) 0 limit ∧
      wrap8 (dir * -1) = -dir ∧
      ((MetadataPublisher.axis_step pos dir limit).2 * 10 = 10 ∨
        (MetadataPublisher.axis_step pos dir limit).2 * 10 = -10) ∧
      wrap32 (pos + (MetadataPublisher.axis_step pos dir limit).2 * 10)
        = pos + 10 * (MetadataPublisher.axis_step pos dir limit).2 := by
    intro pos dir limit h0 h1 hdir hlimit
    have href := axis_step_eq_reference pos dir limit h0 h1 hdir hlimit
    rw [href.1]
    refine ⟨rfl, rfl, ?_, wrap8_neg_unit dir hdir, href.2.2, href.2.1⟩
    rw [clamp_eq_max_min _ _ _ (le_trans h0 h1)]
    rfl
  refine ⟨?_, ?_, fun _ _ _ => rfl, ?_⟩
  · intro h0 h1 hdir hlimit
    rw [hax.1, hax.2.1]
    exact haxis _ _ _ h0 h1 hdir hlimit
  · intro h0 h1 hdir hlimit
    rw [hax.2.2.1, hax.2.2.2.1]
    exact haxis _ _ _ h0 h1 hdir hlimit
  · intro other
    have hother := on_transformable_frame_axes other ssrc timestamp data
    constructor
    · intro e1 e2 e3
      rw [hother.1, hother.2.1, hax.1, hax.2.1, e1, e2, e3]
      exact ⟨rfl, rfl⟩
    · intro e1 e2 e3
      rw [hother.2.2.1, hother.2.2.2.1, hax.2.2.1, hax.2.2.2.1, e1, e2, e3]
      exact ⟨rfl, rfl⟩

/-- C25 at a concrete input: the point on the right border of a 640x480 frame turns back. -/
theorem bounce_step_equals_reference_witness :
    (((MetadataPublisher.mk Publisher.create 640 480 640 240 1 1).on_transformable_frame
        1 2 []).1.pos_x,
      ((MetadataPublisher.mk Publisher.create 640 480 640 240 1 1).on_transformable_frame
        1 2 []).1.dir_x) = bounce_reference 640 1 640 ∧
    bounce_reference 640 1 640 = (630, -1) :=
  ⟨((bounce_step_equals_reference (MetadataPublisher.mk Publisher.create 640 480 640 240 1 1)
      1 2 []).1 (by decide) (by decide) (Or.inl rfl) (by decide)).1, by decide⟩

theorem dir_unit_after_frames (frames : List (Nat × Nat)) (self : MetadataPublisher)
    (hx : self.dir_x = 1 ∨ self.dir_x = -1) (hy : self.dir_y = 1 ∨ self.dir_y = -1) :
    ((self.after_frames frames).dir_x = 1 ∨ (self.after_frames frames).dir_x = -1) ∧
    ((self.after_frames frames).dir_y = 1 ∨ (self.after_frames frames).dir_y = -1) := by
  induction frames generalizing self with
  | nil => exact ⟨hx, hy⟩
  | cons frame rest ih =>
    rw [after_frames_cons]
    have hax := on_transformable_frame_axes self frame.1 frame.2 []
    exact ih _ (by rw [hax.2.1]; exact axis_step_dir_unit _ _ _ hx)
      (by rw [hax.2.2.2.1]; exact axis_step_dir_unit _ _ _ hy)

/-- C26: starting from the constructor's state (`dir_x = dir_y = 1`, whatever `width`, `height`
and the position are, so also after `run`), after any number of `on_transformable_frame` calls
`dir_x` and `dir_y` are each `+1` or `-1`. -/
theorem directions_always_unit :
    (∀ width height : Int,
      (MetadataPublisher.new width height).dir_x = 1 ∧
        (MetadataPublisher.new width height).dir_y = 1) ∧
    (∀ (self : MetadataPublisher) (frames : List (Nat × Nat)),
      self.dir_x = 1 → self.dir_y = 1 →
      ((self.after_frames frames).dir_x = 1 ∨ (self.after_frames frames).dir_x = -1) ∧
      ((self.after_frames frames).dir_y = 1 ∨ (self.after_frames frames).dir_y = -1)) :=
  ⟨fun _ _ => ⟨rfl, rfl⟩,
   fun self frames hx hy => dir_unit_after_frames frames self (Or.inl hx) (Or.inl hy)⟩

/-- C26 at a concrete input: the constructor's state with width and height 0, where every call
reverses both directions. -/
theorem directions_always_unit_witness :
    ((MetadataPublisher.new 0 0).after_frames [(1, 0), (1, 1), (1, 2)]).dir_x = -1 ∧
    ((((MetadataPublisher.new 0 0).after_frames [(1, 0), (1, 1), (1, 2)]).dir_x = 1 ∨
        ((MetadataPublisher.new 0 0).after_frames [(1, 0), (1, 1), (1, 2)]).dir_x = -1) ∧
      (((MetadataPublisher.new 0 0).after_frames [(1, 0), (1, 1), (1, 2)]).dir_y = 1 ∨
        ((MetadataPublisher.new 0 0).after_frames [(1, 0), (1, 1), (1, 2)]).dir_y = -1)) :=
  ⟨by decide,
   directions_always_unit.2 (MetadataPublisher.new 0 0) [(1, 0), (1, 1), (1, 2)] rfl rfl⟩

end Millicast

/-! ## The iteration order of the stats report -/

namespace Millicast
open rtcstats
namespace StatsReport

theorem foldl_add_stats_perm_entries (rs : List Stats) (r : StatsReport)
    (hnd : (rs.map (fun s => s.id)).Nodup)
    (hfresh : ∀ s ∈ rs, findEntry s.id r.map = none) :
    List.Perm (rs.foldl add_stats r).map (r.map ++ rs.map (fun s => (s.id, s))) := by
  induction rs generalizing r with
  | nil => simp
  | cons s rest ih =>
    rw [List.map_cons, List.nodup_cons] at hnd
    have hs : findEntry s.id r.map = none := hfresh s (List.mem_cons_self _ _)
    have hfresh2 : ∀ t ∈ rest, findEntry t.id (add_stats r s).map = none := by
      intro t ht
      have hne : t.id ≠ s.id := by
        intro heq
        exact hnd.1 (List.mem_map.mpr ⟨t, ht, heq⟩)
      show findEntry t.id (insertEntry s.id s r.map) = none
      rw [findEntry_insertEntry_ne _ _ _ _ hne]
      exact hfresh t (List.mem_cons_of_mem _ ht)
    have h1 := ih (add_stats r s) hnd.2 hfresh2
    have h2 : List.Perm (add_stats r s).map ((s.id, s) :: r.map) :=
      insertEntry_perm s.id s r.map hs
    rw [List.foldl_cons, List.map_cons]
    refine h1.trans ?_
    refine (h2.append_right _).trans ?_
    have hmid : List.Perm (r.map ++ (s.id, s) :: rest.map (fun s => (s.id, s)))
        ((s.id, s) :: (r.map ++ rest.map (fun s => (s.id, s)))) := List.perm_middle
    simpa using hmid.symm

theorem addAll_eq_of_perm (rs rs2 : List Stats) (hnd : (rs.map (fun s => s.id)).Nodup)
    (hperm : List.Perm rs rs2) : addAll rs = addAll rs2 := by
  have hnd2 : (rs2.map (fun s => s.id)).Nodup := (hperm.map _).nodup_iff.mp hnd
  have h1 := foldl_add_stats_perm_entries rs empty hnd (fun _ _ => rfl)
  have h2 := foldl_add_stats_perm_entries rs2 empty hnd2 (fun _ _ => rfl)
  have hentries : List.Perm (addAll rs).map (addAll rs2).map := by
    refine h1.trans (List.Perm.trans ?_ h2.symm)
    exact (hperm.map _).append_left _
  haveI : IsAntisymm (String × Stats) (fun a b => a.1 < b.1) :=
    ⟨fun a b hab hba => absurd hab (lt_asymm hba)⟩
  have heq : (addAll rs).map = (addAll rs2).map :=
    List.eq_of_perm_of_sorted hentries (wf_addAll rs) (wf_addAll rs2)
  cases hr : addAll rs
  cases hr2 : addAll rs2
  rw [hr, hr2] at heq
  simp only at heq
  rw [heq]

/-- C27: `get_stats_of_type<T>()` returns the matching records in the iteration order of
`begin()..end()` (it is that sequence with the other records left out); for a report whose map
is keyed by record id this order is strictly ascending by id, and it does not depend on the
order in which the records were added. -/
theorem get_stats_of_type_iteration_order (T : RecordT) :
    (∀ r : StatsReport,
      r.get_stats_of_type T = r.iterate.filter (fun s => decide (s.type = T.STYPE)) ∧
      List.Sublist (r.get_stats_of_type T) r.iterate) ∧
    (∀ r : StatsReport, r.WF → r.KeyedById →
      (r.get_stats_of_type T).Pairwise (fun a b => a.id < b.id)) ∧
    (∀ rs rs2 : List Stats, (rs.map (fun s => s.id)).Nodup → List.Perm rs rs2 →
      (addAll rs).get_stats_of_type T = (addAll rs2).get_stats_of_type T ∧
      ((addAll rs).get_stats_of_type T).Pairwise (fun a b => a.id < b.id)) := by
  refine ⟨fun r => ?_, fun r hw hk => ?_, fun rs rs2 hnd hperm => ?_⟩
  · rw [get_stats_of_type_eq_filter]
    exact ⟨rfl, List.filter_sublist _⟩
  · rw [get_stats_of_type_eq_filter]
    exact List.Pairwise.sublist (List.filter_sublist _) (iterate_ids_pairwise r hw hk)
  · constructor
    · rw [addAll_eq_of_perm rs rs2 hnd hperm]
    · rw [get_stats_of_type_eq_filter]
      exact List.Pairwise.sublist (List.filter_sublist _)
        (iterate_ids_pairwise _ (wf_addAll rs) (keyed_addAll rs))

/-- C27 at a concrete input: the two codec records give the same result in both orders of
addition, `audio-src` first. -/
theorem get_stats_of_type_iteration_order_witness :
    (addAll [sampleVideoCodec, sampleAudioCodec]).get_stats_of_type RecordT.Codecs
      = (addAll [sampleAudioCodec, sampleVideoCodec]).get_stats_of_type RecordT.Codecs ∧
    ((addAll [sampleVideoCodec, sampleAudioCodec]).get_stats_of_type RecordT.Codecs).Pairwise
      (fun a b => a.id < b.id) :=
  (get_stats_of_type_iteration_order RecordT.Codecs).2.2
    [sampleVideoCodec, sampleAudioCodec] [sampleAudioCodec, sampleVideoCodec] (by decide)
    (List.Perm.swap _ _ _)

end StatsReport
end Millicast
